import Mathlib

/-!
Verification development for the nat-emulation NAT/firewall state machine
(source: src/nat.rs).  The router state, the binding tables, the binding
selection algorithm and the two packet operations are embedded shallowly:
machine integers become Nat (addresses, ports, flags) and Int (timestamps),
the PRNG becomes an explicit stream of draws with a cursor, vectors become
lists with an explicit swap-remove, and the two unbounded search loops
(internal address assignment and random port selection) take explicit fuel.
-/

namespace NatEmu

/-! Behavioral flags, from src/nat_flags.rs. -/

def IP_POOLING_BEHAVIOR_ARBITRARY : Nat := 1 <<< 0
def ADDRESS_DEPENDENT_MAPPING : Nat := 1 <<< 1
def PORT_DEPENDENT_MAPPING : Nat := 1 <<< 2
def ADDRESS_DEPENDENT_FILTERING : Nat := 1 <<< 3
def PORT_DEPENDENT_FILTERING : Nat := 1 <<< 4
def NO_HAIRPINNING : Nat := 1 <<< 5
def INTERNAL_ADDRESS_AND_PORT_HAIRPINNING : Nat := 1 <<< 6
def OUTBOUND_REFRESH_BEHAVIOR_FALSE : Nat := 1 <<< 7
def INBOUND_REFRESH_BEHAVIOR_FALSE : Nat := 1 <<< 8
def FILTERED_INBOUND_DESTROYS_MAPPING : Nat := 1 <<< 9
def NO_PORT_PRESERVATION : Nat := 1 <<< 10
def NO_PORT_PARITY : Nat := 1 <<< 11
def PORT_PRESERVATION_OVERRIDE : Nat := 1 <<< 12
def PORT_PRESERVATION_OVERLOAD : Nat := 1 <<< 13

/-! Data model, from src/nat.rs. -/

/-- One row of a binding table (struct Entry in the source). -/
structure Entry where
  internal_addr : Nat
  internal_port : Nat
  external_port : Nat
  endpoint_addr : Nat
  endpoint_port : Nat
  last_used_time : Int
deriving DecidableEq, Repr

/-- The PRNG is an external collaborator; the core consumes a stream of
draws.  We model it as the stream together with a cursor. -/
structure Rng where
  stream : Nat → Nat
  idx : Nat

def Rng.nextU32 (r : Rng) : Nat × Rng :=
  (r.stream r.idx % 2 ^ 32, ⟨r.stream, r.idx + 1⟩)

def Rng.nextU64 (r : Rng) : Nat × Rng :=
  (r.stream r.idx % 2 ^ 64, ⟨r.stream, r.idx + 1⟩)

/-- The router state (struct NATRouter in the source).  The const generic M
(capacity of the external address array) is kept as the field capM because
the source tests M == 1 to skip PRNG draws; external_addresses holds the
first external_addresses_len entries, so its length plays the role of
external_addresses_len. -/
structure Router where
  capM : Nat
  external_addresses : List Nat
  map : List (List Entry)
  intranet : List (Nat × Nat)
  max_routing_table_len : Nat
  rng : Rng
  assigned_external_ports_start : Nat
  assigned_external_ports_end : Nat
  assigned_internal_addresses_start : Nat
  assigned_internal_addresses_end : Nat
  flags : Nat
  mapping_timeout : Int

/-- Return type of send_internal_packet (enum DestType in the source). -/
inductive DestType where
  | external (external_src_addr external_src_port : Nat)
  | internal (external_src_addr external_src_port internal_dest_addr internal_dest_port : Nat)
  | drop
deriving DecidableEq, Repr

/-! List helpers mirroring the Vec and HashMap operations the source uses. -/

/-- Vec::swap_remove i: replace index i with the last element and pop.
Total model; the source panics when i is out of bounds, which never happens
on the swap_remove call sites modelled with this helper. -/
def swapRemove (l : List Entry) (i : Nat) : List Entry :=
  match l.getLast? with
  | none => []
  | some a => (l.set i a).dropLast

/-- Array swap of two indices (used by the permutation shuffle). -/
def listSwap (l : List Nat) (i j : Nat) : List Nat :=
  match l.get? i, l.get? j with
  | some a, some b => (l.set i b).set j a
  | _, _ => l

/-- HashMap::get on the intranet registry. -/
def lookupA (l : List (Nat × Nat)) (k : Nat) : Option Nat :=
  match l with
  | [] => none
  | (k', v) :: rest => if k' = k then some v else lookupA rest k

/-- HashMap::insert on the intranet registry (replaces an existing key). -/
def insertA (l : List (Nat × Nat)) (k v : Nat) : List (Nat × Nat) :=
  (k, v) :: l.filter (fun p => p.1 ≠ k)

/-! receive_external_packet, src/nat.rs lines 445-503. -/

/-- The inbound filtering test (the condition at lines 476-478). -/
def filterPass (flags : Nat) (external_src_addr external_src_port : Nat) (e : Entry) : Bool :=
  (flags &&& ADDRESS_DEPENDENT_FILTERING == 0 || e.endpoint_addr == external_src_addr) &&
  (flags &&& PORT_DEPENDENT_FILTERING == 0 || e.endpoint_port == external_src_port)

/-- The scan loop of receive_external_packet (lines 469-489): walk the
table, dropping expired rows by swap-remove (re-examining the swapped-in
row), and return the first live row with the destination port that passes
the filter, refreshing its timestamp unless INBOUND_REFRESH_BEHAVIOR_FALSE.
Returns (result, table after the loop, needs_destruction). -/
def receiveScan (flags : Nat) (external_src_addr external_src_port external_dest_port : Nat)
    (disable_filtering : Bool) (expiry current_time : Int) :
    Nat → List Entry → Nat → Bool → Option (Nat × Nat) × List Entry × Bool
  | 0, table, _, needs_destruction => (none, table, needs_destruction)
  | Nat.succ gas, table, i, needs_destruction =>
    if h : i < table.length then
      let route := table[i]
      if route.last_used_time < expiry then
        receiveScan flags external_src_addr external_src_port external_dest_port
          disable_filtering expiry current_time gas (swapRemove table i) i needs_destruction
      else if route.external_port == external_dest_port then
        if disable_filtering || filterPass flags external_src_addr external_src_port route then
          let table' :=
            if flags &&& INBOUND_REFRESH_BEHAVIOR_FALSE == 0 then
              table.set i { route with last_used_time := current_time }
            else table
          (some (route.internal_addr, route.internal_port), table', needs_destruction)
        else
          receiveScan flags external_src_addr external_src_port external_dest_port
            disable_filtering expiry current_time gas table (i + 1)
            (needs_destruction || decide (flags &&& FILTERED_INBOUND_DESTROYS_MAPPING > 0))
      else
        receiveScan flags external_src_addr external_src_port external_dest_port
          disable_filtering expiry current_time gas table (i + 1) needs_destruction
    else (none, table, needs_destruction)

/-- The post-scan destruction loop (lines 491-500): remove every row with
the destination port, re-examining the swapped-in row after each removal. -/
def destroyPort (external_dest_port : Nat) : Nat → List Entry → Nat → List Entry
  | 0, table, _ => table
  | Nat.succ gas, table, i =>
    if h : i < table.length then
      if (table[i]).external_port == external_dest_port then
        destroyPort external_dest_port gas (swapRemove table i) i
      else
        destroyPort external_dest_port gas table (i + 1)
    else table

/-- The linear search for the destination address (lines 454-460): the
first index holding the destination address, if any. -/
def findDestIdx (dst : Nat) : List Nat → Option Nat
  | [] => none
  | a :: rest => if a = dst then some 0 else (findDestIdx dst rest).map (· + 1)

/-- receive_external_packet: route an inbound packet.  Returns the
translated internal destination (or none for a drop) and the new state. -/
def receive_external_packet (r : Router)
    (external_src_addr external_src_port external_dest_addr external_dest_port : Nat)
    (disable_filtering : Bool) (current_time : Int) :
    Option (Nat × Nat) × Router :=
  match findDestIdx external_dest_addr r.external_addresses with
  | none => (none, r)
  | some dest_address_idx =>
    let routing_table := r.map.getD dest_address_idx []
    let expiry := current_time - r.mapping_timeout
    match receiveScan r.flags external_src_addr external_src_port external_dest_port
        disable_filtering expiry current_time routing_table.length routing_table 0 false with
    | (some res, table', _) => (some res, { r with map := r.map.set dest_address_idx table' })
    | (none, table', needs_destruction) =>
      let table'' :=
        if needs_destruction then destroyPort external_dest_port table'.length table' 0
        else table'
      (none, { r with map := r.map.set dest_address_idx table'' })

/-! The hairpin remap, src/nat.rs lines 206-242.  Note: the source passes
disable_filtering = false to receive_external_packet. -/

def remap (r : Router) (internal_addr internal_port external_addr external_port
    dest_addr dest_port : Nat) (current_time : Int) : DestType × Router :=
  match receive_external_packet r external_addr external_port dest_addr dest_port
      false current_time with
  | (some (d_addr, d_port), r') =>
    if r'.flags &&& INTERNAL_ADDRESS_AND_PORT_HAIRPINNING > 0 then
      (.internal internal_addr internal_port d_addr d_port, r')
    else
      (.internal external_addr external_port d_addr d_port, r')
  | (none, r') =>
    if r'.external_addresses.contains dest_addr then
      (.drop, r')
    else
      (.external external_addr external_port, r')

/-! select_inet_address, src/nat.rs lines 243-307. -/

/-- The in-place Fisher-Yates walk at lines 255-257: for i from len-1 down
to 1, swap index i with a random index in [0, i]. -/
def shuffleLoop (perm : List Nat) (rng : Rng) : Nat → List Nat × Rng
  | 0 => (perm, rng)
  | Nat.succ i =>
    let v := rng.nextU64.1
    let rng' := rng.nextU64.2
    shuffleLoop (listSwap perm (Nat.succ i) (v % (Nat.succ i + 1))) rng' i

/-- The labelled walk at lines 259-267: the first permutation entry whose
table holds no row with the source port. -/
def permWalk (map : List (List Entry)) (src_port : Nat) : List Nat → Option Nat
  | [] => none
  | idx :: rest =>
    if (map.getD idx []).any (fun route => route.external_port == src_port) then
      permWalk map src_port rest
    else some idx

/-- The PORT_PRESERVATION_OVERRIDE removal loop at lines 273-279.  The
source iterates i over the range 0..initial length while swap_remove
shrinks the vector, so an index can run past the end: that is a Rust panic,
modelled as none.  n0 is the initial length, captured once. -/
def overrideLoop (src_port : Nat) (n0 : Nat) : Nat → List Entry → Nat → Option (List Entry)
  | 0, table, i => if i < n0 then none else some table
  | Nat.succ gas, table, i =>
    if i < n0 then
      if h : i < table.length then
        if (table[i]).external_port == src_port then
          overrideLoop src_port n0 gas (swapRemove table i) (i + 1)
        else
          overrideLoop src_port n0 gas table (i + 1)
      else none
    else some table

/-- Result of select_inet_address: a chosen (address index, port) with the
updated state, a Rust panic, or fuel exhaustion of the random-regeneration
loop. -/
inductive SelectResult where
  | ok (addr_idx : Nat) (port : Nat) (r : Router)
  | crash
  | fuelOut

/-- The 'regen loop at lines 284-306: draw an address (respecting pairing
and the M == 1 shortcut) and a port, force the port parity unless
NO_PORT_PARITY, and redraw on a collision with an existing row. -/
def regenLoop (r : Router) (paired_addr_idx : Option Nat) (src_port : Nat) :
    Nat → SelectResult
  | 0 => .fuelOut
  | Nat.succ fuel =>
    let ar :=
      match paired_addr_idx with
      | some idx => (idx, r.rng)
      | none =>
        if r.capM == 1 then (0, r.rng)
        else (r.rng.nextU64.1 % r.external_addresses.length, r.rng.nextU64.2)
    let random_addr := ar.1
    let rng1 := ar.2
    let v32 := rng1.nextU32.1
    let rng2 := rng1.nextU32.2
    let ports_len := r.assigned_external_ports_end - r.assigned_external_ports_start + 1
    let random_port0 := v32 % ports_len + r.assigned_external_ports_start
    let random_port :=
      if r.flags &&& NO_PORT_PARITY == 0 then
        (random_port0 &&& 0xFFFE) ||| (src_port &&& 1)
      else random_port0
    if (r.map.getD random_addr []).any (fun route => route.external_port == random_port) then
      regenLoop { r with rng := rng2 } paired_addr_idx src_port fuel
    else .ok random_addr random_port { r with rng := rng2 }

/-- select_inet_address: choose the external address index and port for a
new binding. -/
def select_inet_address (r : Router) (paired_addr_idx : Option Nat) (src_port : Nat)
    (fuel : Nat) : SelectResult :=
  if r.flags &&& NO_PORT_PRESERVATION == 0 then
    let len := r.external_addresses.length
    let (addr_perm, rng') :=
      match paired_addr_idx with
      | some idx => ([idx], r.rng)
      | none => shuffleLoop (List.range len) r.rng (len - 1)
    let r1 := { r with rng := rng' }
    match permWalk r1.map src_port addr_perm with
    | some idx => .ok idx src_port r1
    | none =>
      if r1.flags &&& PORT_PRESERVATION_OVERLOAD > 0 then
        .ok (addr_perm.headD 0) src_port r1
      else if r1.flags &&& PORT_PRESERVATION_OVERRIDE > 0 then
        let i0 := addr_perm.headD 0
        let routing_table := r1.map.getD i0 []
        match overrideLoop src_port routing_table.length routing_table.length routing_table 0 with
        | none => .crash
        | some table' => .ok i0 src_port { r1 with map := r1.map.set i0 table' }
      else regenLoop r1 paired_addr_idx src_port fuel
  else regenLoop r paired_addr_idx src_port fuel

/-! send_internal_packet, src/nat.rs lines 327-426. -/

/-- One iteration of the inner row loop of the reuse sweep (lines 361-394)
runs over one table; this function runs the loop to completion.  Outcome
inl: an exact (address and port) match was found at this table; the source
refreshes it (unless OUTBOUND_REFRESH_BEHAVIOR_FALSE) and returns
immediately, so the sweep stops.  Outcome inr: the loop finished; carry the
updated table, the preferred-reuse record, and the oldest row tracking. -/
def tableSweep (flags : Nat) (internal_src_addr internal_src_port
    external_dest_addr external_dest_port : Nat) (expiry current_time : Int)
    (address_idx : Nat) :
    Nat → List Entry → Nat → Int → Nat → Option (Nat × Option Nat) →
    (List Entry × Nat) ⊕ (List Entry × Option (Nat × Option Nat) × Int × Nat)
  | 0, table, _, oldest_time, oldest_idx, pm => Sum.inr (table, pm, oldest_time, oldest_idx)
  | Nat.succ gas, table, i, oldest_time, oldest_idx, pm =>
    if h : i < table.length then
      let route := table[i]
      if route.last_used_time < expiry then
        tableSweep flags internal_src_addr internal_src_port external_dest_addr
          external_dest_port expiry current_time address_idx gas
          (swapRemove table i) i oldest_time oldest_idx pm
      else
        let cont := fun (pm' : Option (Nat × Option Nat)) =>
          let p := if oldest_time ≥ route.last_used_time
                   then (route.last_used_time, i) else (oldest_time, oldest_idx)
          tableSweep flags internal_src_addr internal_src_port external_dest_addr
            external_dest_port expiry current_time address_idx gas
            table (i + 1) p.1 p.2 pm'
        if route.internal_addr == internal_src_addr && route.internal_port == internal_src_port then
          let addr_match := route.endpoint_addr == external_dest_addr
          let port_match := route.endpoint_port == external_dest_port
          if addr_match && port_match then
            let table' :=
              if flags &&& OUTBOUND_REFRESH_BEHAVIOR_FALSE == 0 then
                table.set i { route with last_used_time := current_time }
              else table
            Sum.inl (table', route.external_port)
          else if (flags &&& ADDRESS_DEPENDENT_MAPPING == 0 || addr_match) &&
                  (flags &&& PORT_DEPENDENT_MAPPING == 0 || port_match) then
            cont (some (address_idx, some route.external_port))
          else cont pm
        else cont pm
    else Sum.inr (table, pm, oldest_time, oldest_idx)

/-- The outer loop of the reuse sweep (lines 356-398): sweep every table in
index order; after each table that completes without an exact match, evict
the tracked oldest row if the table is at capacity. -/
def tablesLoop (flags : Nat) (internal_src_addr internal_src_port
    external_dest_addr external_dest_port : Nat) (expiry current_time : Int)
    (max_len len : Nat) :
    Nat → List (List Entry) → Nat → Option (Nat × Option Nat) →
    (List (List Entry) × Nat × Nat) ⊕ (List (List Entry) × Option (Nat × Option Nat))
  | 0, map, _, pm => Sum.inr (map, pm)
  | Nat.succ gas, map, address_idx, pm =>
    if address_idx < len then
      match tableSweep flags internal_src_addr internal_src_port external_dest_addr
          external_dest_port expiry current_time address_idx
          (map.getD address_idx []).length (map.getD address_idx []) 0 (2 ^ 63 - 1) 0 pm with
      | Sum.inl (table', ex_port) =>
        Sum.inl (map.set address_idx table', address_idx, ex_port)
      | Sum.inr (table', pm', _, oldest_idx) =>
        let table'' := if table'.length ≥ max_len then swapRemove table' oldest_idx else table'
        tablesLoop flags internal_src_addr internal_src_port external_dest_addr
          external_dest_port expiry current_time max_len len gas
          (map.set address_idx table'') (address_idx + 1) pm'
    else Sum.inr (map, pm)

/-- The binding-resolution tail of send_internal_packet (everything after
the three entry guards, lines 345-425). -/
def sendResolve (r : Router) (internal_src_addr internal_src_port
    external_dest_addr external_dest_port : Nat) (current_time : Int)
    (fuel : Nat) (external_src_addr_idx : Nat) : Option (DestType × Router) :=
  let pm : Option (Nat × Option Nat) :=
    if r.flags &&& IP_POOLING_BEHAVIOR_ARBITRARY > 0 then none
    else some (external_src_addr_idx, none)
  let expiry := current_time - r.mapping_timeout
  match tablesLoop r.flags internal_src_addr internal_src_port external_dest_addr
      external_dest_port expiry current_time r.max_routing_table_len
      r.external_addresses.length r.external_addresses.length r.map 0 pm with
  | Sum.inl (map', address_idx, route_ex_port) =>
    let r' := { r with map := map' }
    some (remap r' internal_src_addr internal_src_port
      (r.external_addresses.getD address_idx 0) route_ex_port
      external_dest_addr external_dest_port current_time)
  | Sum.inr (map', pm') =>
    let r' := { r with map := map' }
    let sel : SelectResult :=
      match pm' with
      | some (ex_addr_idx, some ex_port) => .ok ex_addr_idx ex_port r'
      | _ => select_inet_address r' (pm'.map (fun a => a.1)) internal_src_port fuel
    match sel with
    | .ok external_address_idx external_port r'' =>
      let external_addr := r''.external_addresses.getD external_address_idx 0
      let entry : Entry :=
        { internal_addr := internal_src_addr, internal_port := internal_src_port,
          external_port := external_port, endpoint_addr := external_dest_addr,
          endpoint_port := external_dest_port, last_used_time := current_time }
      let r3 := { r'' with
        map := r''.map.set external_address_idx
          ((r''.map.getD external_address_idx []) ++ [entry]) }
      some (remap r3 internal_src_addr internal_src_port external_addr external_port
        external_dest_addr external_dest_port current_time)
    | _ => none

/-- send_internal_packet: route an outbound packet.  none models a Rust
panic or exhaustion of the port-selection fuel. -/
def send_internal_packet (r : Router) (internal_src_addr internal_src_port
    external_dest_addr external_dest_port : Nat) (current_time : Int)
    (fuel : Nat) : Option (DestType × Router) :=
  if r.assigned_internal_addresses_start ≤ external_dest_addr ∧
      external_dest_addr ≤ r.assigned_internal_addresses_end then
    some (.internal internal_src_addr internal_src_port external_dest_addr
      external_dest_port, r)
  else if r.flags &&& NO_HAIRPINNING > 0 && r.external_addresses.contains external_dest_addr then
    some (.drop, r)
  else
    match lookupA r.intranet internal_src_addr with
    | none => some (.drop, r)
    | some external_src_addr_idx =>
      sendResolve r internal_src_addr internal_src_port external_dest_addr
        external_dest_port current_time fuel external_src_addr_idx

/-! assign_internal_address, src/nat.rs lines 179-201, with fuel for the
draw-until-unused loop. -/

def assign_internal_address (r : Router) : Nat → Option (Nat × Router)
  | 0 => none
  | Nat.succ fuel =>
    let addr_len := r.assigned_internal_addresses_end - r.assigned_internal_addresses_start
    let v32 := r.rng.nextU32.1
    let rng1 := r.rng.nextU32.2
    let random_addr :=
      if addr_len == 2 ^ 32 - 1 then v32
      else v32 % (addr_len + 1) + r.assigned_internal_addresses_start
    if (lookupA r.intranet random_addr).isSome then
      assign_internal_address { r with rng := rng1 } fuel
    else
      let er :=
        if r.capM == 1 then (0, rng1)
        else (rng1.nextU64.1 % r.external_addresses.length, rng1.nextU64.2)
      some (random_addr,
        { r with rng := er.2, intranet := insertA r.intranet random_addr er.1 })

/-! Construction (NATRouter::new) and call sequences. -/

/-- The construction parameters of NATRouter::new. -/
structure Config where
  flags : Nat
  capM : Nat
  external_addresses : List Nat
  internal_addresses_start : Nat
  internal_addresses_end : Nat
  external_dynamic_ports_start : Nat
  external_dynamic_ports_end : Nat
  stream : Nat → Nat
  mapping_timeout : Int

/-- NATRouter::new (lines 136-166). -/
def Router.new (c : Config) : Router :=
  { capM := c.capM
    external_addresses := c.external_addresses
    map := List.replicate c.external_addresses.length []
    intranet := []
    max_routing_table_len :=
      (c.external_dynamic_ports_end - c.external_dynamic_ports_start + 1) * 2 / 5
    rng := ⟨c.stream, 0⟩
    assigned_external_ports_start := c.external_dynamic_ports_start
    assigned_external_ports_end := c.external_dynamic_ports_end
    assigned_internal_addresses_start := c.internal_addresses_start
    assigned_internal_addresses_end := c.internal_addresses_end
    flags := c.flags
    mapping_timeout := c.mapping_timeout }

/-- One public call to the router. -/
inductive Op where
  | assign (fuel : Nat)
  | send (internal_src_addr internal_src_port external_dest_addr external_dest_port : Nat)
      (current_time : Int) (fuel : Nat)
  | recv (external_src_addr external_src_port external_dest_addr external_dest_port : Nat)
      (disable_filtering : Bool) (current_time : Int)

/-- The observable return value of one call. -/
inductive CallOut where
  | assigned (a : Option Nat)
  | sent (d : Option DestType)
  | received (p : Option (Nat × Nat))
deriving DecidableEq, Repr

/-- Apply one call to the router. -/
def stepOp (r : Router) : Op → CallOut × Router
  | .assign fuel =>
    match assign_internal_address r fuel with
    | none => (.assigned none, r)
    | some (a, r') => (.assigned (some a), r')
  | .send sa sp da dp t fuel =>
    match send_internal_packet r sa sp da dp t fuel with
    | none => (.sent none, r)
    | some (d, r') => (.sent (some d), r')
  | .recv sa sp da dp b t =>
    let (p, r') := receive_external_packet r sa sp da dp b t
    (.received p, r')

/-- Apply a sequence of calls, collecting the outputs. -/
def runOps (r : Router) : List Op → List CallOut × Router
  | [] => ([], r)
  | op :: ops =>
    let (o, r') := stepOp r op
    let (os, r'') := runOps r' ops
    (o :: os, r'')

/-- The initial preferred-mapping record of send_internal_packet (lines
345-353): the paired external index unless pooling is Arbitrary. -/
def pmInit (r : Router) (external_src_addr_idx : Nat) : Option (Nat × Option Nat) :=
  if r.flags &&& IP_POOLING_BEHAVIOR_ARBITRARY > 0 then none
  else some (external_src_addr_idx, none)

/-- The binding row appended by Step E (lines 409-416). -/
def mkEntry (internal_src_addr internal_src_port external_port
    external_dest_addr external_dest_port : Nat) (current_time : Int) : Entry :=
  { internal_addr := internal_src_addr, internal_port := internal_src_port,
    external_port := external_port, endpoint_addr := external_dest_addr,
    endpoint_port := external_dest_port, last_used_time := current_time }

/-- The state right after the push of the new binding (line 409). -/
def pushState (r'' : Router) (external_address_idx external_port
    internal_src_addr internal_src_port external_dest_addr external_dest_port : Nat)
    (current_time : Int) : Router :=
  { r'' with
    map := r''.map.set external_address_idx
      ((r''.map.getD external_address_idx []) ++
        [mkEntry internal_src_addr internal_src_port external_port
          external_dest_addr external_dest_port current_time]) }

/-! Predicates used by the verified properties. -/

/-- Everything of a binding except its timestamp. -/
def Entry.key (e : Entry) : Nat × Nat × Nat × Nat × Nat :=
  (e.internal_addr, e.internal_port, e.external_port, e.endpoint_addr, e.endpoint_port)

/-- Every row of the first table has a row of the second with the same key
(rows are only dropped, reordered, or refreshed). -/
def keySub (out inp : List Entry) : Prop :=
  ∀ e' ∈ out, ∃ e ∈ inp, e.key = e'.key

/-- Any two rows of one table that share an external port belong to the
same internal endpoint. -/
def TableOk (tbl : List Entry) : Prop :=
  ∀ e₁ ∈ tbl, ∀ e₂ ∈ tbl, e₁.external_port = e₂.external_port →
    e₁.internal_addr = e₂.internal_addr ∧ e₁.internal_port = e₂.internal_port

/-- TableOk for every table of the binding map. -/
def MapOk (m : List (List Entry)) : Prop := ∀ tbl ∈ m, TableOk tbl

/-- Every timestamp in the binding map is at most t. -/
def timesLE (r : Router) (t : Int) : Prop :=
  ∀ tbl ∈ r.map, ∀ e ∈ tbl, e.last_used_time ≤ t

/-- A row that can answer an inbound packet to port P from remote
(da, dp): right external port, that remote recorded, and not expired. -/
def GoodRow (P da dp : Nat) (expiry : Int) (e : Entry) : Prop :=
  e.external_port = P ∧ e.endpoint_addr = da ∧ e.endpoint_port = dp ∧
    expiry ≤ e.last_used_time

def SelectResult.isCrash : SelectResult → Bool
  | .crash => true
  | _ => false

/-- The table carried by either outcome of tableSweep. -/
def sweepOutTable :
    (List Entry × Nat) ⊕ (List Entry × Option (Nat × Option Nat) × Int × Nat) → List Entry
  | Sum.inl (t, _) => t
  | Sum.inr (t, _, _, _) => t

/-- The binding map carried by either outcome of tablesLoop. -/
def loopOutMap :
    (List (List Entry) × Nat × Nat) ⊕ (List (List Entry) × Option (Nat × Option Nat)) →
    List (List Entry)
  | Sum.inl (m, _, _) => m
  | Sum.inr (m, _) => m

/-! Concrete instances used by counterexamples and witnesses. -/

/-- EASY_NAT configuration (no behavior flags), one external address. -/
def cEasy : Config :=
  { flags := 0, capM := 1, external_addresses := [11111],
    internal_addresses_start := 90000, internal_addresses_end := 99999,
    external_dynamic_ports_start := 49152, external_dynamic_ports_end := 65535,
    stream := fun _ => 0, mapping_timeout := 120000 }

/-- Op sequence for the port-uniqueness counterexample: register a host,
then send from one internal endpoint to two distinct remote endpoints. -/
def opsTwoSends : List Op :=
  [.assign 10, .send 90000 17 22222 80 200 10, .send 90000 17 33333 80 300 10]

/-- A registered host and empty tables (the state reached from cEasy by one
assign_internal_address, written out). -/
def rEasy1 : Router :=
  { capM := 1, external_addresses := [11111], map := [[]],
    intranet := [(90000, 0)], max_routing_table_len := 6553,
    rng := ⟨fun _ => 0, 1⟩,
    assigned_external_ports_start := 49152, assigned_external_ports_end := 65535,
    assigned_internal_addresses_start := 90000, assigned_internal_addresses_end := 99999,
    flags := 0, mapping_timeout := 120000 }

/-- State after sending (90000,17) → (22222,80) at t = 200 from rEasy1. -/
def rEasy2 : Router :=
  ((send_internal_packet rEasy1 90000 17 22222 80 200 10).getD (.drop, rEasy1)).2

/-- State for the round-trip counterexample: two live rows share external
port 17 but belong to different internal endpoints (such a state is not
reachable without PORT_PRESERVATION_OVERLOAD, which is the point of the
amended round-trip statement). -/
def rTwoOwners : Router :=
  { capM := 1, external_addresses := [11111],
    map := [[⟨90001, 55, 17, 22222, 80, 200⟩, ⟨90000, 17, 17, 22222, 80, 200⟩]],
    intranet := [(90000, 0), (90001, 0)], max_routing_table_len := 6553,
    rng := ⟨fun _ => 0, 0⟩,
    assigned_external_ports_start := 49152, assigned_external_ports_end := 65535,
    assigned_internal_addresses_start := 90000, assigned_internal_addresses_end := 99999,
    flags := 0, mapping_timeout := 120000 }

def rTwoOwners' : Router :=
  ((send_internal_packet rTwoOwners 90000 17 22222 80 300 10).getD (.drop, rTwoOwners)).2

/-- State for the hairpin-filtering counterexample: host 90001 holds a
binding on external port 40 whose last remote is (55555, 60); the NAT does
address-dependent filtering. -/
def rHairpin : Router :=
  { capM := 1, external_addresses := [11111],
    map := [[⟨90001, 30, 40, 55555, 60, 100⟩]],
    intranet := [(90000, 0), (90001, 0)], max_routing_table_len := 6553,
    rng := ⟨fun _ => 0, 0⟩,
    assigned_external_ports_start := 49152, assigned_external_ports_end := 65535,
    assigned_internal_addresses_start := 90000, assigned_internal_addresses_end := 99999,
    flags := ADDRESS_DEPENDENT_FILTERING, mapping_timeout := 120000 }

/-- Like rHairpin but with FILTERED_INBOUND_DESTROYS_MAPPING as well. -/
def rFiltered : Router :=
  { rHairpin with
    flags := ADDRESS_DEPENDENT_FILTERING + FILTERED_INBOUND_DESTROYS_MAPPING }

/-- State for the PORT_PRESERVATION_OVERRIDE crash: the paired table holds
a row with the contested port 5 at index 0 and another row behind it. -/
def rOverride : Router :=
  { capM := 1, external_addresses := [11111],
    map := [[⟨90000, 5, 5, 22222, 80, 100⟩, ⟨90001, 7, 7, 22222, 80, 100⟩]],
    intranet := [(90000, 0), (90001, 0)], max_routing_table_len := 6553,
    rng := ⟨fun _ => 0, 0⟩,
    assigned_external_ports_start := 49152, assigned_external_ports_end := 65535,
    assigned_internal_addresses_start := 90000, assigned_internal_addresses_end := 99999,
    flags := PORT_PRESERVATION_OVERRIDE, mapping_timeout := 120000 }

/-- Router with port preservation disabled, for the parity witness. -/
def rRandomPort : Router :=
  { rEasy1 with flags := NO_PORT_PRESERVATION, rng := ⟨fun _ => 6, 0⟩ }

def selRandomPort : SelectResult := select_inet_address rRandomPort none 17 5

def selRandomPortPort : Nat :=
  match selRandomPort with
  | .ok _ p _ => p
  | _ => 0

def selRandomPortIdx : Nat :=
  match selRandomPort with
  | .ok i _ _ => i
  | _ => 0

def selRandomPortState : Router :=
  match selRandomPort with
  | .ok _ _ st => st
  | _ => rRandomPort

/-! List helper lemmas. -/

theorem length_swapRemove (l : List Entry) (i : Nat) :
    (swapRemove l i).length = l.length - 1 := by
  unfold swapRemove
  cases hl : l.getLast? with
  | none => simp [List.getLast?_eq_none_iff.mp hl]
  | some a => simp

theorem mem_of_getLast?_entry {l : List Entry} {a : Entry} (h : l.getLast? = some a) :
    a ∈ l := by
  have h2 := List.getLast?_eq_getElem? l
  rw [h] at h2
  exact List.getElem?_mem h2.symm

theorem mem_of_mem_swapRemove {l : List Entry} {i : Nat} {x : Entry}
    (hx : x ∈ swapRemove l i) : x ∈ l := by
  unfold swapRemove at hx
  cases hl : l.getLast? with
  | none => rw [hl] at hx; simp at hx
  | some a =>
    rw [hl] at hx
    have hx2 := (List.dropLast_sublist _).mem hx
    rcases List.mem_or_eq_of_mem_set hx2 with h | h
    · exact h
    · exact h ▸ mem_of_getLast?_entry hl

theorem getLast?_eq_getElem_last {l : List Entry} (h : 0 < l.length) :
    l.getLast? = some (l.get ⟨l.length - 1, by omega⟩) := by
  rw [List.getLast?_eq_getElem?]
  rw [List.getElem?_eq_getElem (by omega)]
  rfl

theorem getElem?_swapRemove_of_lt {l : List Entry} {i j : Nat}
    (hj : j < l.length - 1) (hij : i ≠ j) :
    (swapRemove l i)[j]? = l[j]? := by
  have h0 : 0 < l.length := by omega
  unfold swapRemove
  cases hl : l.getLast? with
  | none =>
    rw [List.getLast?_eq_none_iff.mp hl] at h0
    simp at h0
  | some a =>
    have h1 : j < ((l.set i a).dropLast).length := by simp; omega
    rw [List.getElem?_eq_getElem h1, List.getElem?_eq_getElem (show j < l.length by omega)]
    exact congrArg some (by rw [List.getElem_dropLast, List.getElem_set_ne hij])

theorem getElem?_swapRemove_self {l : List Entry} {i : Nat}
    (hi : i < l.length - 1) :
    (swapRemove l i)[i]? = l[l.length - 1]? := by
  have h0 : 0 < l.length := by omega
  unfold swapRemove
  cases hl : l.getLast? with
  | none =>
    rw [List.getLast?_eq_none_iff.mp hl] at h0
    simp at h0
  | some a =>
    rw [getLast?_eq_getElem_last h0] at hl
    have ha : a = l.get ⟨l.length - 1, by omega⟩ := by
      injection hl with hl'
      exact hl'.symm
    have h1 : i < ((l.set i a).dropLast).length := by simp; omega
    rw [List.getElem?_eq_getElem h1,
      List.getElem?_eq_getElem (show l.length - 1 < l.length by omega)]
    refine congrArg some ?_
    rw [List.getElem_dropLast, List.getElem_set_self]
    exact ha

theorem mem_swapRemove_of_ne {l : List Entry} {i : Nat} (hi : i < l.length)
    {x : Entry} (hx : x ∈ l) (hne : x ≠ l[i]) : x ∈ swapRemove l i := by
  obtain ⟨j, hj, hxj⟩ := List.mem_iff_getElem.mp hx
  have hij : i ≠ j := fun h => hne (by subst h; exact hxj.symm ▸ rfl)
  by_cases hlast : j < l.length - 1
  · rw [List.mem_iff_getElem?]
    refine ⟨j, ?_⟩
    rw [getElem?_swapRemove_of_lt hlast hij, List.getElem?_eq_getElem hj]
    exact congrArg some hxj
  · have hj' : j = l.length - 1 := by omega
    have hi' : i < l.length - 1 := by omega
    rw [List.mem_iff_getElem?]
    refine ⟨i, ?_⟩
    rw [getElem?_swapRemove_self hi',
      List.getElem?_eq_getElem (show l.length - 1 < l.length by omega)]
    refine congrArg some ?_
    subst hj'
    exact hxj

theorem mem_of_mem_listSwap {l : List Nat} {i j : Nat} {x : Nat}
    (hx : x ∈ listSwap l i j) : x ∈ l := by
  unfold listSwap at hx
  cases hi : l.get? i with
  | none => rw [hi] at hx; exact hx
  | some a =>
    cases hj : l.get? j with
    | none => rw [hi, hj] at hx; exact hx
    | some b =>
      rw [hi, hj] at hx
      simp only at hx
      rcases List.mem_or_eq_of_mem_set hx with h | h
      · rcases List.mem_or_eq_of_mem_set h with h2 | h2
        · exact h2
        · subst h2; exact List.get?_mem hj
      · subst h; exact List.get?_mem hi

theorem getD_set_self {l : List (List Entry)} {i : Nat} (h : i < l.length)
    (a : List Entry) : (l.set i a).getD i [] = a := by
  rw [List.getD_eq_getElem?_getD, List.getElem?_set_self (by omega)]
  rfl

theorem getD_set_ne {l : List (List Entry)} {i j : Nat} (h : i ≠ j)
    (a : List Entry) : (l.set i a).getD j [] = l.getD j [] := by
  rw [List.getD_eq_getElem?_getD, List.getElem?_set_ne h, ← List.getD_eq_getElem?_getD]

theorem getD_mem_or_nil (l : List (List Entry)) (i : Nat) :
    l.getD i [] ∈ l ∨ l.getD i [] = [] := by
  by_cases h : i < l.length
  · left
    rw [List.getD_eq_getElem?_getD, List.getElem?_eq_getElem h]
    exact List.getElem_mem h
  · right
    rw [List.getD_eq_getElem?_getD, List.getElem?_eq_none (by omega)]
    rfl

theorem findDestIdx_some {dst : Nat} {l : List Nat} {i : Nat}
    (h : findDestIdx dst l = some i) : ∃ hi : i < l.length, l[i] = dst := by
  induction l generalizing i with
  | nil => simp [findDestIdx] at h
  | cons a rest ih =>
    unfold findDestIdx at h
    by_cases ha : a = dst
    · simp [ha] at h
      subst h
      exact ⟨by simp, by simpa using ha⟩
    · simp [ha] at h
      obtain ⟨i', hi', hii⟩ := h
      obtain ⟨hlt, hval⟩ := ih hi'
      subst hii
      exact ⟨by simpa using Nat.succ_lt_succ hlt, by simpa using hval⟩

theorem findDestIdx_of_nodup {dst : Nat} {l : List Nat} (hnd : l.Nodup)
    {i : Nat} (hi : i < l.length) (hval : l[i] = dst) :
    findDestIdx dst l = some i := by
  induction l generalizing i with
  | nil => simp at hi
  | cons a rest ih =>
    unfold findDestIdx
    rcases i with _ | i'
    · simp at hval
      simp [hval]
    · have hmem : dst ∈ rest := by
        subst hval
        exact List.getElem_mem (by simpa using Nat.lt_of_succ_lt_succ hi)
      have hne : a ≠ dst := fun h => (List.nodup_cons.mp hnd).1 (h ▸ hmem)
      simp only [if_neg hne]
      rw [ih (List.nodup_cons.mp hnd).2 (by simpa using Nat.lt_of_succ_lt_succ hi)
        (by simpa using hval)]
      rfl

theorem findDestIdx_none_iff {dst : Nat} {l : List Nat} :
    findDestIdx dst l = none ↔ dst ∉ l := by
  induction l with
  | nil => simp [findDestIdx]
  | cons a rest ih =>
    unfold findDestIdx
    by_cases ha : a = dst
    · simp [ha]
    · simp [ha, ih, Ne.symm ha]

theorem contains_eq_true_of_findDestIdx {dst : Nat} {l : List Nat} {i : Nat}
    (h : findDestIdx dst l = some i) : l.contains dst = true := by
  obtain ⟨hi, hval⟩ := findDestIdx_some h
  exact List.elem_eq_true_of_mem (hval ▸ List.getElem_mem hi)

theorem findDestIdx_none_of_contains_false {dst : Nat} {l : List Nat}
    (h : l.contains dst = false) : findDestIdx dst l = none := by
  rw [findDestIdx_none_iff]
  intro hmem
  have := List.elem_eq_true_of_mem hmem
  rw [List.contains] at h
  rw [this] at h
  exact absurd h (by simp)

/-! Structural facts about receive_external_packet. -/

/-- receive_external_packet either misses (destination not ours: no state
change, no result) or replaces exactly the table of the destination index. -/
theorem receive_state_shape (r : Router) (sa sp da dp : Nat) (b : Bool) (t : Int) :
    (findDestIdx da r.external_addresses = none ∧
      receive_external_packet r sa sp da dp b t = (none, r)) ∨
    (∃ idx tbl, findDestIdx da r.external_addresses = some idx ∧
      (receive_external_packet r sa sp da dp b t).2 = { r with map := r.map.set idx tbl }) := by
  unfold receive_external_packet
  cases h : findDestIdx da r.external_addresses with
  | none => exact Or.inl ⟨rfl, rfl⟩
  | some idx =>
    right
    rcases hscan : receiveScan r.flags sa sp dp b (t - r.mapping_timeout) t
        (r.map.getD idx []).length (r.map.getD idx []) 0 false with ⟨res, tbl', nd⟩
    cases res with
    | some p =>
      refine ⟨idx, tbl', rfl, ?_⟩
      dsimp only
      rw [hscan]
    | none =>
      refine ⟨idx, if nd then destroyPort dp tbl'.length tbl' 0 else tbl', rfl, ?_⟩
      dsimp only
      rw [hscan]

/-- C10: receive_from_external leaves the registry, the PRNG, the
configuration, and every binding table other than the destination table
unchanged; when the destination address is not one of the external
addresses it returns none with the entire state unchanged. -/
theorem receive_external_frame (r : Router) (sa sp da dp : Nat) (b : Bool) (t : Int) :
    (receive_external_packet r sa sp da dp b t).2.intranet = r.intranet ∧
    (receive_external_packet r sa sp da dp b t).2.rng = r.rng ∧
    (receive_external_packet r sa sp da dp b t).2.external_addresses = r.external_addresses ∧
    (receive_external_packet r sa sp da dp b t).2.flags = r.flags ∧
    (receive_external_packet r sa sp da dp b t).2.mapping_timeout = r.mapping_timeout ∧
    (∀ j, some j ≠ findDestIdx da r.external_addresses →
      (receive_external_packet r sa sp da dp b t).2.map.getD j [] = r.map.getD j []) ∧
    (findDestIdx da r.external_addresses = none →
      receive_external_packet r sa sp da dp b t = (none, r)) := by
  rcases receive_state_shape r sa sp da dp b t with ⟨hn, heq⟩ | ⟨idx, tbl, hidx, heq⟩
  · rw [heq]
    exact ⟨rfl, rfl, rfl, rfl, rfl, fun j _ => rfl, fun _ => rfl⟩
  · rw [heq]
    refine ⟨rfl, rfl, rfl, rfl, rfl, fun j hj => ?_, fun hn => by rw [hn] at hidx; cases hidx⟩
    exact getD_set_ne (fun h => hj (by rw [h] at hidx; exact hidx.symm)) tbl

/-- Closed instance of receive_external_frame: an inbound packet whose
destination is not an external address leaves the state unchanged. -/
theorem receive_external_frame_witness :
    (receive_external_packet rEasy1 1 2 3 4 false 0).2.intranet = rEasy1.intranet ∧
    (receive_external_packet rEasy1 1 2 3 4 false 0).2.map.getD 7 [] = rEasy1.map.getD 7 [] :=
  ⟨(receive_external_frame rEasy1 1 2 3 4 false 0).1,
    (receive_external_frame rEasy1 1 2 3 4 false 0).2.2.2.2.2.1 7 (by decide)⟩

/-- C6: the three entry guards of send_internal_packet, in order:
intra-LAN destinations pass through unrewritten; hairpin destinations drop
under NO_HAIRPINNING; unregistered senders drop; otherwise binding
resolution (sendResolve) runs. -/
theorem send_guard_order (r : Router) (sa sp da dp : Nat) (t : Int) (fuel : Nat) :
    (r.assigned_internal_addresses_start ≤ da ∧ da ≤ r.assigned_internal_addresses_end →
      send_internal_packet r sa sp da dp t fuel = some (.internal sa sp da dp, r)) ∧
    (¬ (r.assigned_internal_addresses_start ≤ da ∧ da ≤ r.assigned_internal_addresses_end) →
      r.flags &&& NO_HAIRPINNING > 0 → r.external_addresses.contains da = true →
      send_internal_packet r sa sp da dp t fuel = some (.drop, r)) ∧
    (¬ (r.assigned_internal_addresses_start ≤ da ∧ da ≤ r.assigned_internal_addresses_end) →
      ¬ (r.flags &&& NO_HAIRPINNING > 0 ∧ r.external_addresses.contains da = true) →
      lookupA r.intranet sa = none →
      send_internal_packet r sa sp da dp t fuel = some (.drop, r)) ∧
    (∀ ei, ¬ (r.assigned_internal_addresses_start ≤ da ∧ da ≤ r.assigned_internal_addresses_end) →
      ¬ (r.flags &&& NO_HAIRPINNING > 0 ∧ r.external_addresses.contains da = true) →
      lookupA r.intranet sa = some ei →
      send_internal_packet r sa sp da dp t fuel = sendResolve r sa sp da dp t fuel ei) := by
  refine ⟨fun h1 => ?_, fun h1 h2 h3 => ?_, fun h1 h2 h3 => ?_, fun ei h1 h2 h3 => ?_⟩
  · unfold send_internal_packet
    rw [if_pos h1]
  · unfold send_internal_packet
    rw [if_neg h1]
    have hc : (decide (r.flags &&& NO_HAIRPINNING > 0) && r.external_addresses.contains da) = true := by
      rw [decide_eq_true h2, h3]
      rfl
    simp only [hc, if_true]
  · unfold send_internal_packet
    rw [if_neg h1]
    have hc : (decide (r.flags &&& NO_HAIRPINNING > 0) && r.external_addresses.contains da) = false := by
      by_cases hh : r.flags &&& NO_HAIRPINNING > 0
      · cases hcc : r.external_addresses.contains da with
        | true => exact absurd ⟨hh, hcc⟩ h2
        | false => simp [hcc]
      · simp [hh]
    simp only [hc, Bool.false_eq_true, if_false, h3]
  · unfold send_internal_packet
    rw [if_neg h1]
    have hc : (decide (r.flags &&& NO_HAIRPINNING > 0) && r.external_addresses.contains da) = false := by
      by_cases hh : r.flags &&& NO_HAIRPINNING > 0
      · cases hcc : r.external_addresses.contains da with
        | true => exact absurd ⟨hh, hcc⟩ h2
        | false => simp [hcc]
      · simp [hh]
    simp only [hc, Bool.false_eq_true, if_false, h3]

/-- Closed instance of send_guard_order: an intra-LAN destination passes
through unrewritten, and an unregistered sender is dropped. -/
theorem send_guard_order_witness :
    send_internal_packet rEasy1 90000 17 90005 80 200 10 =
      some (.internal 90000 17 90005 80, rEasy1) ∧
    send_internal_packet rEasy1 77777 17 22222 80 200 10 = some (.drop, rEasy1) :=
  ⟨(send_guard_order rEasy1 90000 17 90005 80 200 10).1 (by decide),
    (send_guard_order rEasy1 77777 17 22222 80 200 10).2.2.1 (by decide) (by decide) (by decide)⟩

/-- C9: the embedded router is deterministic: identical configurations
(flags, addresses, ranges, timeout) and identical PRNG streams yield
identical outputs and final states on any call sequence. -/
theorem run_deterministic (c₁ c₂ : Config) (ops : List Op)
    (hflags : c₁.flags = c₂.flags) (hcap : c₁.capM = c₂.capM)
    (hext : c₁.external_addresses = c₂.external_addresses)
    (hias : c₁.internal_addresses_start = c₂.internal_addresses_start)
    (hiae : c₁.internal_addresses_end = c₂.internal_addresses_end)
    (hps : c₁.external_dynamic_ports_start = c₂.external_dynamic_ports_start)
    (hpe : c₁.external_dynamic_ports_end = c₂.external_dynamic_ports_end)
    (hstream : ∀ n, c₁.stream n = c₂.stream n)
    (htime : c₁.mapping_timeout = c₂.mapping_timeout) :
    runOps (Router.new c₁) ops = runOps (Router.new c₂) ops := by
  have hc : c₁ = c₂ := by
    cases c₁
    cases c₂
    congr 1
    exact funext hstream
  rw [hc]

/-- Closed instance of run_deterministic on the two-send sequence. -/
theorem run_deterministic_witness :
    runOps (Router.new cEasy) opsTwoSends = runOps (Router.new cEasy) opsTwoSends :=
  run_deterministic cEasy cEasy opsTwoSends rfl rfl rfl rfl rfl rfl rfl (fun _ => rfl) rfl

/-! Port parity. -/

/-- Forcing the low bit (bit-clear with !1u16 then bit-or with the source
port's low bit) yields a port with the source port's parity. -/
theorem parity_force (p s : Nat) : ((p &&& 0xFFFE) ||| (s &&& 1)) % 2 = s % 2 := by
  have h1 : ∀ n : Nat, n % 2 = n &&& 1 := fun n => (Nat.and_one_is_mod n).symm
  rw [h1, h1]
  apply Nat.eq_of_testBit_eq
  intro i
  simp only [Nat.testBit_and, Nat.testBit_or]
  cases i with
  | zero => simp
  | succ j => simp [Nat.testBit_succ]

/-- Every successful draw of the random-regeneration loop has the source
port's parity when NO_PORT_PARITY is unset. -/
theorem regenLoop_parity (fuel : Nat) :
    ∀ (r : Router) (paired : Option Nat) (sp idx port : Nat) (r' : Router),
    r.flags &&& NO_PORT_PARITY = 0 →
    regenLoop r paired sp fuel = .ok idx port r' →
    port % 2 = sp % 2 := by
  induction fuel with
  | zero =>
    intro r paired sp idx port r' hpar h
    exact absurd h (by simp [regenLoop])
  | succ n ih =>
    intro r paired sp idx port r' hpar h
    unfold regenLoop at h
    cases paired with
    | some j =>
      dsimp only at h
      rw [hpar] at h
      simp only [Nat.reduceBEq, if_true] at h
      split at h
      · refine ih _ _ _ _ _ _ ?_ h
        exact hpar
      · cases h
        exact parity_force _ _
    | none =>
      by_cases hcap : r.capM == 1
      · simp only [hcap, if_true] at h
        rw [hpar] at h
        simp only [Nat.reduceBEq, if_true] at h
        split at h
        · refine ih _ _ _ _ _ _ ?_ h
          exact hpar
        · cases h
          exact parity_force _ _
      · simp only [hcap, Bool.false_eq_true, if_false] at h
        rw [hpar] at h
        simp only [Nat.reduceBEq, if_true] at h
        split at h
        · refine ih _ _ _ _ _ _ ?_ h
          exact hpar
        · cases h
          exact parity_force _ _

/-- C8: with NO_PORT_PARITY unset and NO_PORT_PRESERVATION set, every
external port chosen by binding resolution has the source port's parity. -/
theorem select_port_parity (r : Router) (paired : Option Nat) (sp : Nat) (fuel : Nat)
    (idx port : Nat) (r' : Router)
    (hpar : r.flags &&& NO_PORT_PARITY = 0)
    (hnp : r.flags &&& NO_PORT_PRESERVATION ≠ 0)
    (hsel : select_inet_address r paired sp fuel = .ok idx port r') :
    port % 2 = sp % 2 := by
  unfold select_inet_address at hsel
  have hc : (r.flags &&& NO_PORT_PRESERVATION == 0) = false := by
    simpa using hnp
  rw [hc] at hsel
  simp only [Bool.false_eq_true, if_false] at hsel
  exact regenLoop_parity fuel r paired sp idx port r' hpar hsel

/-- Closed instance of select_port_parity: the concrete draw for source
port 17 comes out odd. -/
theorem select_port_parity_witness : selRandomPortPort % 2 = 17 % 2 :=
  select_port_parity rRandomPort none 17 5 selRandomPortIdx selRandomPortPort
    selRandomPortState (by decide) (by decide) rfl

/-! Row provenance through the inbound scan. -/

/-- Every row of the table left by the inbound scan is an input row,
possibly with its timestamp refreshed to the current time. -/
theorem receiveScan_rows (flags sa sp dp : Nat) (b : Bool) (expiry now : Int) :
    ∀ (gas : Nat) (table : List Entry) (i : Nat) (nd : Bool),
    ∀ e' ∈ (receiveScan flags sa sp dp b expiry now gas table i nd).2.1,
    e' ∈ table ∨ ∃ e ∈ table, e' = { e with last_used_time := now } := by
  intro gas table i nd
  induction gas, table, i, nd using receiveScan.induct flags sa sp dp b expiry now with
  | case1 table i nd =>
    intro e' he'
    exact Or.inl he'
  | case2 gas table i nd h route hlt ih =>
    intro e' he'
    rw [receiveScan, dif_pos h, if_pos hlt] at he'
    rcases ih e' he' with hm | ⟨e, hm, heq⟩
    · exact Or.inl (mem_of_mem_swapRemove hm)
    · exact Or.inr ⟨e, mem_of_mem_swapRemove hm, heq⟩
  | case3 gas table i nd h route hlt hport hpass =>
    intro e' he'
    rw [receiveScan, dif_pos h, if_neg hlt, if_pos hport, if_pos hpass] at he'
    dsimp only at he'
    split at he'
    · rcases List.mem_or_eq_of_mem_set he' with hm | heq
      · exact Or.inl hm
      · exact Or.inr ⟨table[i], List.getElem_mem h, heq⟩
    · exact Or.inl he'
  | case4 gas table i nd h route hlt hport hpass ih =>
    intro e' he'
    rw [receiveScan, dif_pos h, if_neg hlt, if_pos hport, if_neg hpass] at he'
    exact ih e' he'
  | case5 gas table i nd h route hlt hport ih =>
    intro e' he'
    rw [receiveScan, dif_pos h, if_neg hlt, if_neg hport] at he'
    exact ih e' he'
  | case6 gas table i nd h =>
    intro e' he'
    rw [receiveScan, dif_neg h] at he'
    exact Or.inl he'

/-- The destruction loop only removes rows. -/
theorem destroyPort_subset (dp : Nat) :
    ∀ (gas : Nat) (table : List Entry) (i : Nat), ∀ e ∈ destroyPort dp gas table i, e ∈ table := by
  intro gas table i
  induction gas, table, i using destroyPort.induct dp with
  | case1 table i =>
    intro e he
    exact he
  | case2 gas table i h hport ih =>
    intro e he
    rw [destroyPort, dif_pos h, if_pos hport] at he
    exact mem_of_mem_swapRemove (ih e he)
  | case3 gas table i h hport ih =>
    intro e he
    rw [destroyPort, dif_pos h, if_neg hport] at he
    exact ih e he
  | case4 gas table i h =>
    intro e he
    rw [destroyPort, dif_neg h] at he
    exact he

/-- If every row of the table is expired the inbound scan finds nothing. -/
theorem receiveScan_none_of_expired (flags sa sp dp : Nat) (b : Bool) (expiry now : Int) :
    ∀ (gas : Nat) (table : List Entry) (i : Nat) (nd : Bool),
    (∀ e ∈ table, e.last_used_time < expiry) →
    (receiveScan flags sa sp dp b expiry now gas table i nd).1 = none := by
  intro gas table i nd
  induction gas, table, i, nd using receiveScan.induct flags sa sp dp b expiry now with
  | case1 table i nd =>
    intro hexp
    rfl
  | case2 gas table i nd h route hlt ih =>
    intro hexp
    rw [receiveScan, dif_pos h, if_pos hlt]
    exact ih (fun e he => hexp e (mem_of_mem_swapRemove he))
  | case3 gas table i nd h route hlt hport hpass =>
    intro hexp
    exact absurd (hexp table[i] (List.getElem_mem h)) hlt
  | case4 gas table i nd h route hlt hport hpass ih =>
    intro hexp
    exact absurd (hexp table[i] (List.getElem_mem h)) hlt
  | case5 gas table i nd h route hlt hport ih =>
    intro hexp
    rw [receiveScan, dif_pos h, if_neg hlt, if_neg hport]
    exact ih hexp
  | case6 gas table i nd h =>
    intro hexp
    rw [receiveScan, dif_neg h]

/-- Per-table row provenance for receive_external_packet: every row of any
table afterwards is a row the table held before, possibly refreshed. -/
theorem receive_table_rows (r : Router) (sa sp da dp : Nat) (b : Bool) (t : Int) (j : Nat) :
    ∀ e' ∈ (receive_external_packet r sa sp da dp b t).2.map.getD j [],
    e' ∈ r.map.getD j [] ∨ ∃ e ∈ r.map.getD j [], e' = { e with last_used_time := t } := by
  intro e' he'
  unfold receive_external_packet at he'
  cases hidx : findDestIdx da r.external_addresses with
  | none =>
    rw [hidx] at he'
    exact Or.inl he'
  | some idx =>
    rw [hidx] at he'
    dsimp only at he'
    by_cases hj : idx = j
    · subst hj
      by_cases hlen : idx < r.map.length
      · rcases hscan : receiveScan r.flags sa sp dp b (t - r.mapping_timeout) t
            (r.map.getD idx []).length (r.map.getD idx []) 0 false with ⟨res, tbl', nd⟩
        rw [hscan] at he'
        cases res with
        | some p =>
          dsimp only at he'
          rw [getD_set_self hlen] at he'
          have := receiveScan_rows r.flags sa sp dp b (t - r.mapping_timeout) t
            (r.map.getD idx []).length (r.map.getD idx []) 0 false e' (by rw [hscan]; exact he')
          exact this
        | none =>
          dsimp only at he'
          rw [getD_set_self hlen] at he'
          have hmem : e' ∈ tbl' := by
            by_cases hnd : nd
            · rw [if_pos hnd] at he'
              exact destroyPort_subset dp tbl'.length tbl' 0 e' he'
            · rw [if_neg hnd] at he'
              exact he'
          have := receiveScan_rows r.flags sa sp dp b (t - r.mapping_timeout) t
            (r.map.getD idx []).length (r.map.getD idx []) 0 false e' (by rw [hscan]; exact hmem)
          exact this
      · rcases hscan : receiveScan r.flags sa sp dp b (t - r.mapping_timeout) t
            (r.map.getD idx []).length (r.map.getD idx []) 0 false with ⟨res, tbl', nd⟩
        rw [hscan] at he'
        have hset : ∀ (tb : List Entry), (r.map.set idx tb) = r.map :=
          fun tb => List.set_eq_of_length_le (by omega)
        cases res with
        | some p =>
          dsimp only at he'
          rw [hset] at he'
          exact Or.inl he'
        | none =>
          dsimp only at he'
          rw [hset] at he'
          exact Or.inl he'
    · have hne : idx ≠ j := hj
      rcases hscan : receiveScan r.flags sa sp dp b (t - r.mapping_timeout) t
          (r.map.getD idx []).length (r.map.getD idx []) 0 false with ⟨res, tbl', nd⟩
      rw [hscan] at he'
      cases res with
      | some p =>
        dsimp only at he'
        rw [getD_set_ne hne] at he'
        exact Or.inl he'
      | none =>
        dsimp only at he'
        rw [getD_set_ne hne] at he'
        exact Or.inl he'

/-! Row provenance through the outbound sweep. -/

/-- Every row of the table left by one table's reuse sweep is an input row,
possibly with its timestamp refreshed to the current time. -/
theorem tableSweep_rows (flags sa sp da dp : Nat) (expiry now : Int) (aidx : Nat) :
    ∀ (gas : Nat) (table : List Entry) (i : Nat) (ot : Int) (oi : Nat)
      (pm : Option (Nat × Option Nat)),
    ∀ e' ∈ sweepOutTable (tableSweep flags sa sp da dp expiry now aidx gas table i ot oi pm),
    e' ∈ table ∨ ∃ e ∈ table, e' = { e with last_used_time := now } := by
  intro gas table i ot oi pm
  induction gas, table, i, ot, oi, pm using tableSweep.induct flags sa sp da dp expiry now aidx with
  | case1 table i ot oi pm =>
    intro e' he'
    exact Or.inl he'
  | case2 gas table i ot oi pm h route hlt ih =>
    intro e' he'
    rw [tableSweep, dif_pos h, if_pos hlt] at he'
    rcases ih e' he' with hm | ⟨e, hm, heq⟩
    · exact Or.inl (mem_of_mem_swapRemove hm)
    · exact Or.inr ⟨e, mem_of_mem_swapRemove hm, heq⟩
  | case3 gas table i ot oi pm h route hlt hint am pmx hexact ih =>
    intro e' he'
    rw [tableSweep, dif_pos h, if_neg hlt] at he'
    dsimp only at he'
    rw [if_pos hint, if_pos hexact] at he'
    dsimp only [sweepOutTable] at he'
    split at he'
    · rcases List.mem_or_eq_of_mem_set he' with hm | heq
      · exact Or.inl hm
      · exact Or.inr ⟨table[i], List.getElem_mem h, heq⟩
    · exact Or.inl he'
  | case4 gas table i ot oi pm h route hlt hint am pmx hnexact hqual ih =>
    intro e' he'
    rw [tableSweep, dif_pos h, if_neg hlt] at he'
    dsimp only at he'
    rw [if_pos hint, if_neg hnexact, if_pos hqual] at he'
    exact ih _ e' he'
  | case5 gas table i ot oi pm h route hlt hint am pmx hnexact hnqual ih =>
    intro e' he'
    rw [tableSweep, dif_pos h, if_neg hlt] at he'
    dsimp only at he'
    rw [if_pos hint, if_neg hnexact, if_neg hnqual] at he'
    exact ih _ e' he'
  | case6 gas table i ot oi pm h route hlt hnint ih =>
    intro e' he'
    rw [tableSweep, dif_pos h, if_neg hlt] at he'
    dsimp only at he'
    rw [if_neg hnint] at he'
    exact ih _ e' he'
  | case7 gas table i ot oi pm h =>
    intro e' he'
    rw [tableSweep, dif_neg h] at he'
    exact Or.inl he'

/-- Transitivity of possibly-refreshed row provenance. -/
theorem rowFrom_trans {now : Int} {l1 l2 : List Entry} {e' : Entry}
    (h : e' ∈ l2 ∨ ∃ e ∈ l2, e' = { e with last_used_time := now })
    (hsub : ∀ x ∈ l2, x ∈ l1 ∨ ∃ e ∈ l1, x = { e with last_used_time := now }) :
    e' ∈ l1 ∨ ∃ e ∈ l1, e' = { e with last_used_time := now } := by
  rcases h with h | ⟨e, he, heq⟩
  · exact hsub e' h
  · rcases hsub e he with h2 | ⟨f, hf, heq2⟩
    · exact Or.inr ⟨e, h2, heq⟩
    · refine Or.inr ⟨f, hf, ?_⟩
      subst heq2
      exact heq

/-- Every row of every table after the whole reuse sweep is a prior row of
the same table, possibly with its timestamp refreshed. -/
theorem tablesLoop_rows (flags sa sp da dp : Nat) (expiry now : Int) (maxlen len : Nat) :
    ∀ (gas : Nat) (map : List (List Entry)) (aidx : Nat) (pm : Option (Nat × Option Nat)) (j : Nat),
    ∀ e' ∈ (loopOutMap (tablesLoop flags sa sp da dp expiry now maxlen len gas map aidx pm)).getD j [],
    e' ∈ map.getD j [] ∨ ∃ e ∈ map.getD j [], e' = { e with last_used_time := now } := by
  intro gas map aidx pm
  induction gas, map, aidx, pm using tablesLoop.induct flags sa sp da dp expiry now maxlen len with
  | case1 map aidx pm =>
    intro j e' he'
    exact Or.inl he'
  | case2 gas map aidx pm hlt table' ex_port hsweep =>
    intro j e' he'
    rw [tablesLoop, if_pos hlt, hsweep] at he'
    dsimp only [loopOutMap] at he'
    by_cases hj : aidx = j
    · subst hj
      by_cases hlen : aidx < map.length
      · rw [getD_set_self hlen] at he'
        have := tableSweep_rows flags sa sp da dp expiry now aidx
          (map.getD aidx []).length (map.getD aidx []) 0 (2 ^ 63 - 1) 0 pm e'
          (by rw [hsweep]; exact he')
        exact this
      · rw [List.set_eq_of_length_le (by omega)] at he'
        exact Or.inl he'
    · rw [getD_set_ne hj] at he'
      exact Or.inl he'
  | case3 gas map aidx pm hlt table' pm' fst oldest_idx hsweep tbl2 ih =>
    intro j e' he'
    rw [tablesLoop, if_pos hlt, hsweep] at he'
    dsimp only at he'
    refine rowFrom_trans (ih j e' he') ?_
    intro x hx
    by_cases hj : aidx = j
    · subst hj
      by_cases hlen : aidx < map.length
      · rw [getD_set_self hlen] at hx
        have hx' : x ∈ (if _h : table'.length ≥ maxlen then swapRemove table' oldest_idx
            else table') := hx
        have hsub : x ∈ table' ∨ ∃ e ∈ table', x = { e with last_used_time := now } := by
          split at hx'
          · exact Or.inl (mem_of_mem_swapRemove hx')
          · exact Or.inl hx'
        refine rowFrom_trans hsub ?_
        intro y hy
        exact tableSweep_rows flags sa sp da dp expiry now aidx
          (map.getD aidx []).length (map.getD aidx []) 0 (2 ^ 63 - 1) 0 pm y
          (by rw [hsweep]; exact hy)
      · rw [List.set_eq_of_length_le (by omega)] at hx
        exact Or.inl hx
    · rw [getD_set_ne hj] at hx
      exact Or.inl hx
  | case4 gas map aidx pm hge =>
    intro j e' he'
    rw [tablesLoop, if_neg hge] at he'
    exact Or.inl he'

/-! The override-removal loop: success analysis. -/

/-- Once the loop counter leaves the captured range the loop stops,
returning the current table. -/
theorem overrideLoop_stop (sp n0 gas : Nat) (table : List Entry) (i : Nat)
    (h : ¬ i < n0) : overrideLoop sp n0 gas table i = some table := by
  cases gas with
  | zero => rw [overrideLoop, if_neg h]
  | succ g => rw [overrideLoop, if_neg h]

/-- If the vector has already shrunk below the captured initial length, the
override loop is bound to run off the end (the source panics). -/
theorem overrideLoop_none_of_short (sp n0 : Nat) :
    ∀ (gas : Nat) (table : List Entry) (i : Nat), table.length < n0 → i < n0 →
    overrideLoop sp n0 gas table i = none := by
  intro gas table i
  induction gas, table, i using overrideLoop.induct sp n0 with
  | case1 table i hin =>
    intro hshort hi
    rw [overrideLoop, if_pos hin]
  | case2 table i hin =>
    intro hshort hi
    exact absurd hi hin
  | case3 gas table i hin h hport ih =>
    intro hshort hi
    rw [overrideLoop, if_pos hin, dif_pos h, if_pos hport]
    exact ih (by rw [length_swapRemove]; omega) (by omega)
  | case4 gas table i hin h hport ih =>
    intro hshort hi
    rw [overrideLoop, if_pos hin, dif_pos h, if_neg hport]
    exact ih hshort (by omega)
  | case5 gas table i hin h =>
    intro hshort hi
    rw [overrideLoop, if_pos hin, dif_neg h]
  | case6 gas table i hin =>
    intro hshort hi
    exact absurd hi hin

/-- When the override loop succeeds, no row with the contested source port
remains (success forces the single collision to sit at the very end). -/
theorem overrideLoop_clean (sp n0 : Nat) :
    ∀ (gas : Nat) (table : List Entry) (i : Nat) (t' : List Entry),
    overrideLoop sp n0 gas table i = some t' →
    table.length ≤ n0 →
    (∀ j (hj : j < table.length), j < i → (table[j]).external_port ≠ sp) →
    ∀ e ∈ t', e.external_port ≠ sp := by
  intro gas table i
  induction gas, table, i using overrideLoop.induct sp n0 with
  | case1 table i hin =>
    intro t' hsome hlen hpre
    rw [overrideLoop, if_pos hin] at hsome
    cases hsome
  | case2 table i hin =>
    intro t' hsome hlen hpre
    rw [overrideLoop, if_neg hin] at hsome
    injection hsome with hsome
    subst hsome
    intro e he
    obtain ⟨j, hjlen, hj⟩ := List.mem_iff_getElem.mp he
    rw [← hj]
    exact hpre j hjlen (by omega)
  | case3 gas table i hin h hport ih =>
    intro t' hsome hlen hpre
    rw [overrideLoop, if_pos hin, dif_pos h, if_pos hport] at hsome
    by_cases hnext : i + 1 < n0
    · rw [overrideLoop_none_of_short sp n0 gas (swapRemove table i) (i + 1)
        (by rw [length_swapRemove]; omega) hnext] at hsome
      cases hsome
    · have hlast : i = table.length - 1 := by omega
      rw [overrideLoop_stop sp n0 gas (swapRemove table i) (i + 1) hnext] at hsome
      injection hsome with hsome
      subst hsome
      intro e he
      obtain ⟨j, hj⟩ := List.mem_iff_getElem?.mp he
      have hjlen : j < (swapRemove table i).length := by
        by_contra hc
        rw [List.getElem?_eq_none (by omega)] at hj
        cases hj
      rw [length_swapRemove] at hjlen
      have hij : i ≠ j := by omega
      rw [getElem?_swapRemove_of_lt hjlen hij,
        List.getElem?_eq_getElem (show j < table.length by omega)] at hj
      injection hj with hj
      rw [← hj]
      exact hpre j (by omega) (by omega)
  | case4 gas table i hin h hport ih =>
    intro t' hsome hlen hpre
    rw [overrideLoop, if_pos hin, dif_pos h, if_neg hport] at hsome
    refine ih t' hsome hlen ?_
    intro j hj hji
    by_cases hje : j = i
    · subst hje
      simpa using hport
    · exact hpre j hj (by omega)
  | case5 gas table i hin h =>
    intro t' hsome hlen hpre
    rw [overrideLoop, if_pos hin, dif_neg h] at hsome
    cases hsome
  | case6 gas table i hin =>
    intro t' hsome hlen hpre
    rw [overrideLoop, if_neg hin] at hsome
    injection hsome with hsome
    subst hsome
    intro e he
    obtain ⟨j, hjlen, hj⟩ := List.mem_iff_getElem.mp he
    rw [← hj]
    exact hpre j hjlen (by omega)

/-- The override loop only removes rows. -/
theorem overrideLoop_subset (sp n0 : Nat) :
    ∀ (gas : Nat) (table : List Entry) (i : Nat) (t' : List Entry),
    overrideLoop sp n0 gas table i = some t' → ∀ e ∈ t', e ∈ table := by
  intro gas table i
  induction gas, table, i using overrideLoop.induct sp n0 with
  | case1 table i hin =>
    intro t' hsome e he
    rw [overrideLoop, if_pos hin] at hsome
    cases hsome
  | case2 table i hin =>
    intro t' hsome e he
    rw [overrideLoop, if_neg hin] at hsome
    injection hsome with hsome
    subst hsome
    exact he
  | case3 gas table i hin h hport ih =>
    intro t' hsome e he
    rw [overrideLoop, if_pos hin, dif_pos h, if_pos hport] at hsome
    exact mem_of_mem_swapRemove (ih t' hsome e he)
  | case4 gas table i hin h hport ih =>
    intro t' hsome e he
    rw [overrideLoop, if_pos hin, dif_pos h, if_neg hport] at hsome
    exact ih t' hsome e he
  | case5 gas table i hin h =>
    intro t' hsome e he
    rw [overrideLoop, if_pos hin, dif_neg h] at hsome
    cases hsome
  | case6 gas table i hin =>
    intro t' hsome e he
    rw [overrideLoop, if_neg hin] at hsome
    injection hsome with hsome
    subst hsome
    exact he

/-! The permutation walk and the shuffle. -/

/-- A successful permutation walk returns a permutation member whose table
has no row with the source port. -/
theorem permWalk_some (map : List (List Entry)) (sp : Nat) :
    ∀ (perm : List Nat) (idx : Nat), permWalk map sp perm = some idx →
    idx ∈ perm ∧ ((map.getD idx []).any (fun e => e.external_port == sp)) = false := by
  intro perm
  induction perm with
  | nil => intro idx h; cases h
  | cons a rest ih =>
    intro idx h
    unfold permWalk at h
    split at h
    · obtain ⟨hmem, hany⟩ := ih idx h
      exact ⟨List.mem_cons_of_mem a hmem, hany⟩
    · injection h with h
      subst h
      refine ⟨List.mem_cons_self _ _, ?_⟩
      rename_i hcond
      exact Bool.of_not_eq_true hcond

/-- The shuffle only permutes entries in place. -/
theorem shuffleLoop_mem (rng : Rng) :
    ∀ (n : Nat) (perm : List Nat) (x : Nat), x ∈ (shuffleLoop perm rng n).1 → x ∈ perm := by
  intro n
  induction n generalizing rng with
  | zero => intro perm x hx; exact hx
  | succ m ih =>
    intro perm x hx
    unfold shuffleLoop at hx
    exact mem_of_mem_listSwap (ih _ _ x hx)

/-- The shuffle preserves the length. -/
theorem shuffleLoop_length (rng : Rng) :
    ∀ (n : Nat) (perm : List Nat), (shuffleLoop perm rng n).1.length = perm.length := by
  intro n
  induction n generalizing rng with
  | zero => intro perm; rfl
  | succ m ih =>
    intro perm
    unfold shuffleLoop
    rw [ih]
    unfold listSwap
    cases h1 : perm.get? (Nat.succ m) with
    | none => rfl
    | some a =>
      cases h2 : perm.get? (rng.nextU64.1 % (Nat.succ m + 1)) with
      | none => rfl
      | some b => simp

/-! State facts about the random-port loop and select_inet_address. -/

/-- A successful random-port draw leaves the binding map untouched, only
advances the PRNG, avoids colliding ports, and respects pairing. -/
theorem regenLoop_ok_state (fuel : Nat) :
    ∀ (r : Router) (paired : Option Nat) (sp idx port : Nat) (r'' : Router),
    regenLoop r paired sp fuel = .ok idx port r'' →
    r''.map = r.map ∧ r''.external_addresses = r.external_addresses ∧
    r''.flags = r.flags ∧ r''.intranet = r.intranet ∧
    r''.mapping_timeout = r.mapping_timeout ∧
    r''.max_routing_table_len = r.max_routing_table_len ∧ r''.capM = r.capM ∧
    r''.assigned_internal_addresses_start = r.assigned_internal_addresses_start ∧
    r''.assigned_internal_addresses_end = r.assigned_internal_addresses_end ∧
    r''.assigned_external_ports_start = r.assigned_external_ports_start ∧
    r''.assigned_external_ports_end = r.assigned_external_ports_end ∧
    ((r.map.getD idx []).any (fun e => e.external_port == port)) = false ∧
    (∀ j, paired = some j → idx = j) ∧
    (paired = none → 0 < r.external_addresses.length → idx < r.external_addresses.length) := by
  induction fuel with
  | zero =>
    intro r paired sp idx port r'' h
    exact absurd h (by simp [regenLoop])
  | succ n ih =>
    intro r paired sp idx port r'' h
    unfold regenLoop at h
    have hrec : ∀ (rr : Router), rr.map = r.map → rr.external_addresses = r.external_addresses →
        rr.flags = r.flags → rr.intranet = r.intranet → rr.mapping_timeout = r.mapping_timeout →
        rr.max_routing_table_len = r.max_routing_table_len → rr.capM = r.capM →
        rr.assigned_internal_addresses_start = r.assigned_internal_addresses_start →
        rr.assigned_internal_addresses_end = r.assigned_internal_addresses_end →
        rr.assigned_external_ports_start = r.assigned_external_ports_start →
        rr.assigned_external_ports_end = r.assigned_external_ports_end →
        regenLoop rr paired sp n = .ok idx port r'' →
        r''.map = r.map ∧ r''.external_addresses = r.external_addresses ∧
        r''.flags = r.flags ∧ r''.intranet = r.intranet ∧
        r''.mapping_timeout = r.mapping_timeout ∧
        r''.max_routing_table_len = r.max_routing_table_len ∧ r''.capM = r.capM ∧
        r''.assigned_internal_addresses_start = r.assigned_internal_addresses_start ∧
        r''.assigned_internal_addresses_end = r.assigned_internal_addresses_end ∧
        r''.assigned_external_ports_start = r.assigned_external_ports_start ∧
        r''.assigned_external_ports_end = r.assigned_external_ports_end ∧
        ((r.map.getD idx []).any (fun e => e.external_port == port)) = false ∧
        (∀ j, paired = some j → idx = j) ∧
        (paired = none → 0 < r.external_addresses.length →
          idx < r.external_addresses.length) := by
      intro rr e1 e2 e3 e4 e5 e6 e7 e8 e9 e10 e11 hr
      obtain ⟨g1, g2, g3, g4, g5, g6, g7, g8, g9, g10, g11, g12, g13, g14⟩ :=
        ih rr paired sp idx port r'' hr
      refine ⟨g1.trans e1, g2.trans e2, g3.trans e3, g4.trans e4, g5.trans e5,
        g6.trans e6, g7.trans e7, g8.trans e8, g9.trans e9, g10.trans e10,
        g11.trans e11, ?_, g13, ?_⟩
      · rw [← e1]; exact g12
      · intro hpn hlen
        have hres := g14 hpn (by rw [e2]; exact hlen)
        rw [e2] at hres
        exact hres
    cases paired with
    | some j =>
      dsimp only at h
      split at h <;> split at h
      · refine hrec _ ?_ ?_ ?_ ?_ ?_ ?_ ?_ ?_ ?_ ?_ ?_ h <;> rfl
      · cases h
        rename_i hcoll
        refine ⟨rfl, rfl, rfl, rfl, rfl, rfl, rfl, rfl, rfl, rfl, rfl, ?_, ?_, ?_⟩
        · exact Bool.of_not_eq_true hcoll
        · intro j' hj; cases hj; rfl
        · intro hn; cases hn
      · refine hrec _ ?_ ?_ ?_ ?_ ?_ ?_ ?_ ?_ ?_ ?_ ?_ h <;> rfl
      · cases h
        rename_i hcoll
        refine ⟨rfl, rfl, rfl, rfl, rfl, rfl, rfl, rfl, rfl, rfl, rfl, ?_, ?_, ?_⟩
        · exact Bool.of_not_eq_true hcoll
        · intro j' hj; cases hj; rfl
        · intro hn; cases hn
    | none =>
      by_cases hcap : (r.capM == 1) = true
      · rw [hcap] at h
        simp only [if_true] at h
        split at h <;> split at h
        · refine hrec _ ?_ ?_ ?_ ?_ ?_ ?_ ?_ ?_ ?_ ?_ ?_ h <;> rfl
        · cases h
          rename_i hcoll
          refine ⟨rfl, rfl, rfl, rfl, rfl, rfl, rfl, rfl, rfl, rfl, rfl, ?_, ?_, ?_⟩
          · exact Bool.of_not_eq_true hcoll
          · intro j' hj; cases hj
          · intro _ hl; exact hl
        · refine hrec _ ?_ ?_ ?_ ?_ ?_ ?_ ?_ ?_ ?_ ?_ ?_ h <;> rfl
        · cases h
          rename_i hcoll
          refine ⟨rfl, rfl, rfl, rfl, rfl, rfl, rfl, rfl, rfl, rfl, rfl, ?_, ?_, ?_⟩
          · exact Bool.of_not_eq_true hcoll
          · intro j' hj; cases hj
          · intro _ hl; exact hl
      · rw [Bool.not_eq_true] at hcap
        rw [hcap] at h
        simp only [Bool.false_eq_true, if_false] at h
        split at h <;> split at h
        · refine hrec _ ?_ ?_ ?_ ?_ ?_ ?_ ?_ ?_ ?_ ?_ ?_ h <;> rfl
        · cases h
          rename_i hcoll
          refine ⟨rfl, rfl, rfl, rfl, rfl, rfl, rfl, rfl, rfl, rfl, rfl, ?_, ?_, ?_⟩
          · exact Bool.of_not_eq_true hcoll
          · intro j' hj; cases hj
          · intro _ hl
            exact Nat.mod_lt _ hl
        · refine hrec _ ?_ ?_ ?_ ?_ ?_ ?_ ?_ ?_ ?_ ?_ ?_ h <;> rfl
        · cases h
          rename_i hcoll
          refine ⟨rfl, rfl, rfl, rfl, rfl, rfl, rfl, rfl, rfl, rfl, rfl, ?_, ?_, ?_⟩
          · exact Bool.of_not_eq_true hcoll
          · intro j' hj; cases hj
          · intro _ hl
            exact Nat.mod_lt _ hl

/-- A nonempty list's headD is a member. -/
theorem headD_mem_nat {l : List Nat} (h : l ≠ []) (d : Nat) : l.headD d ∈ l := by
  cases l with
  | nil => exact absurd rfl h
  | cons a rest => simp

/-- Everything a successful select_inet_address guarantees: configuration
and registry untouched, tables only shrunk, the chosen table free of the
chosen port (unless PORT_PRESERVATION_OVERLOAD), and the chosen index in
range. -/
theorem select_ok_spec (r : Router) (paired : Option Nat) (sp fuel idx port : Nat)
    (r'' : Router)
    (hsel : select_inet_address r paired sp fuel = .ok idx port r'') :
    r''.external_addresses = r.external_addresses ∧ r''.flags = r.flags ∧
    r''.mapping_timeout = r.mapping_timeout ∧ r''.intranet = r.intranet ∧
    r''.max_routing_table_len = r.max_routing_table_len ∧ r''.capM = r.capM ∧
    r''.assigned_internal_addresses_start = r.assigned_internal_addresses_start ∧
    r''.assigned_internal_addresses_end = r.assigned_internal_addresses_end ∧
    r''.assigned_external_ports_start = r.assigned_external_ports_start ∧
    r''.assigned_external_ports_end = r.assigned_external_ports_end ∧
    r''.map.length = r.map.length ∧
    (∀ j, ∀ e ∈ r''.map.getD j [], e ∈ r.map.getD j []) ∧
    (r.flags &&& PORT_PRESERVATION_OVERLOAD = 0 →
      ∀ e ∈ r''.map.getD idx [], e.external_port ≠ port) ∧
    (0 < r.external_addresses.length →
      (∀ j, paired = some j → j < r.external_addresses.length) →
      idx < r.external_addresses.length) := by
  have hperm : ∀ (permL : List Nat) (rngL : Rng),
      (0 < r.external_addresses.length →
        (∀ j, paired = some j → j < r.external_addresses.length) →
        ∀ x ∈ permL, x < r.external_addresses.length) →
      (0 < r.external_addresses.length → permL ≠ []) →
      permWalk r.map sp permL = none →
      (let r1 : Router := { r with rng := rngL }
       (if r1.flags &&& PORT_PRESERVATION_OVERLOAD > 0 then
          SelectResult.ok (permL.headD 0) sp r1
        else if r1.flags &&& PORT_PRESERVATION_OVERRIDE > 0 then
          match overrideLoop sp (r1.map.getD (permL.headD 0) []).length
              (r1.map.getD (permL.headD 0) []).length (r1.map.getD (permL.headD 0) []) 0 with
          | none => SelectResult.crash
          | some table' =>
            SelectResult.ok (permL.headD 0) sp { r1 with map := r1.map.set (permL.headD 0) table' }
        else regenLoop r1 paired sp fuel) = .ok idx port r'') →
      r''.external_addresses = r.external_addresses ∧ r''.flags = r.flags ∧
      r''.mapping_timeout = r.mapping_timeout ∧ r''.intranet = r.intranet ∧
      r''.max_routing_table_len = r.max_routing_table_len ∧ r''.capM = r.capM ∧
      r''.assigned_internal_addresses_start = r.assigned_internal_addresses_start ∧
      r''.assigned_internal_addresses_end = r.assigned_internal_addresses_end ∧
      r''.assigned_external_ports_start = r.assigned_external_ports_start ∧
      r''.assigned_external_ports_end = r.assigned_external_ports_end ∧
      r''.map.length = r.map.length ∧
      (∀ j, ∀ e ∈ r''.map.getD j [], e ∈ r.map.getD j []) ∧
      (r.flags &&& PORT_PRESERVATION_OVERLOAD = 0 →
        ∀ e ∈ r''.map.getD idx [], e.external_port ≠ port) ∧
      (0 < r.external_addresses.length →
        (∀ j, paired = some j → j < r.external_addresses.length) →
        idx < r.external_addresses.length) := by
    intro permL rngL hmem hne hpw htail
    dsimp only at htail
    by_cases hovl : ({ r with rng := rngL } : Router).flags &&& PORT_PRESERVATION_OVERLOAD > 0
    · rw [if_pos hovl] at htail
      rw [SelectResult.ok.injEq] at htail
      obtain ⟨h1, h2, h3⟩ := htail
      subst h1
      subst h2
      subst h3
      refine ⟨rfl, rfl, rfl, rfl, rfl, rfl, rfl, rfl, rfl, rfl, rfl,
        fun _ e he => he, fun hov => ?_,
        fun hl hp => hmem hl hp _ (headD_mem_nat (hne hl) 0)⟩
      exact absurd (show r.flags &&& PORT_PRESERVATION_OVERLOAD > 0 from hovl) (by omega)
    · rw [if_neg hovl] at htail
      by_cases hovr : ({ r with rng := rngL } : Router).flags &&& PORT_PRESERVATION_OVERRIDE > 0
      · rw [if_pos hovr] at htail
        cases hol : overrideLoop sp (r.map.getD (permL.headD 0) []).length
            (r.map.getD (permL.headD 0) []).length (r.map.getD (permL.headD 0) []) 0 with
        | none =>
          rw [hol] at htail
          cases htail
        | some t' =>
          rw [hol] at htail
          rw [SelectResult.ok.injEq] at htail
          obtain ⟨h1, h2, h3⟩ := htail
          subst h1
          subst h2
          subst h3
          have hclean := overrideLoop_clean sp (r.map.getD (permL.headD 0) []).length
            (r.map.getD (permL.headD 0) []).length (r.map.getD (permL.headD 0) []) 0 t' hol
            (by omega) (fun j' hj' hlt => by omega)
          have hsub := overrideLoop_subset sp (r.map.getD (permL.headD 0) []).length
            (r.map.getD (permL.headD 0) []).length (r.map.getD (permL.headD 0) []) 0 t' hol
          refine ⟨rfl, rfl, rfl, rfl, rfl, rfl, rfl, rfl, rfl, rfl,
            by simp, ?_, ?_, fun hl hp => hmem hl hp _ (headD_mem_nat (hne hl) 0)⟩
          · intro j' e he
            dsimp only at he
            by_cases hje : (permL.headD 0) = j'
            · subst hje
              by_cases hlen : (permL.headD 0) < r.map.length
              · rw [getD_set_self hlen] at he
                exact hsub e he
              · rw [List.set_eq_of_length_le (by omega)] at he
                exact he
            · rw [getD_set_ne hje] at he
              exact he
          · intro _ e he
            dsimp only at he
            by_cases hlen : (permL.headD 0) < r.map.length
            · rw [getD_set_self hlen] at he
              exact hclean e he
            · rw [List.set_eq_of_length_le (by omega)] at he
              have hnil : r.map.getD (permL.headD 0) [] = [] := by
                rw [List.getD_eq_getElem?_getD, List.getElem?_eq_none (by omega)]
                rfl
              rw [hnil] at he
              cases he
      · rw [if_neg hovr] at htail
        obtain ⟨h1, h2, h3, h4, h5, h6, h7, h8, h9, h10, h11, h12, h13, h14⟩ :=
          regenLoop_ok_state fuel _ _ _ _ _ _ htail
        refine ⟨h2, h3, h5, h4, h6, h7, h8, h9, h10, h11, by rw [h1], ?_, ?_, ?_⟩
        · intro j' e he
          rw [h1] at he
          exact he
        · intro _ e he hp
          rw [h1] at he
          rw [List.any_eq_false] at h12
          exact absurd (by simp [hp]) (h12 e he)
        · intro hl hp
          cases hpc : paired with
          | none => exact h14 hpc hl
          | some j => exact (h13 j hpc) ▸ hp j hpc
  unfold select_inet_address at hsel
  by_cases hnp : (r.flags &&& NO_PORT_PRESERVATION == 0) = true
  · rw [hnp] at hsel
    simp only [if_true] at hsel
    cases paired with
    | some j =>
      dsimp only at hsel
      cases hpw : permWalk r.map sp [j] with
      | some i =>
        rw [hpw] at hsel
        rw [SelectResult.ok.injEq] at hsel
        obtain ⟨h1, h2, h3⟩ := hsel
        subst h1
        subst h2
        subst h3
        obtain ⟨hmem, hany⟩ := permWalk_some r.map sp [j] i hpw
        have hij : i = j := by simpa using hmem
        refine ⟨rfl, rfl, rfl, rfl, rfl, rfl, rfl, rfl, rfl, rfl, rfl,
          fun _ e he => he, fun _ e he hp => ?_, fun _ hp => by rw [hij]; exact hp j rfl⟩
        rw [List.any_eq_false] at hany
        exact absurd (by simp [hp]) (hany e he)
      | none =>
        rw [hpw] at hsel
        refine hperm [j] r.rng ?_ (fun _ => by simp) hpw hsel
        intro hl hp x hx
        have hx' : x = j := by simpa using hx
        subst hx'
        exact hp x rfl
    | none =>
      dsimp only at hsel
      rcases hsh : shuffleLoop (List.range r.external_addresses.length) r.rng
          (r.external_addresses.length - 1) with ⟨permL, rngL⟩
      rw [hsh] at hsel
      dsimp only at hsel
      have hpermmem : ∀ x ∈ permL, x < r.external_addresses.length := by
        intro x hx
        have := shuffleLoop_mem r.rng (r.external_addresses.length - 1)
          (List.range r.external_addresses.length) x (by rw [hsh]; exact hx)
        exact List.mem_range.mp this
      have hpermlen : permL.length = r.external_addresses.length := by
        have := shuffleLoop_length r.rng (r.external_addresses.length - 1)
          (List.range r.external_addresses.length)
        rw [hsh] at this
        simpa using this
      cases hpw : permWalk r.map sp permL with
      | some i =>
        rw [hpw] at hsel
        rw [SelectResult.ok.injEq] at hsel
        obtain ⟨h1, h2, h3⟩ := hsel
        subst h1
        subst h2
        subst h3
        obtain ⟨hmem, hany⟩ := permWalk_some r.map sp permL i hpw
        refine ⟨rfl, rfl, rfl, rfl, rfl, rfl, rfl, rfl, rfl, rfl, rfl,
          fun _ e he => he, fun _ e he hp => ?_, fun _ _ => hpermmem i hmem⟩
        rw [List.any_eq_false] at hany
        exact absurd (by simp [hp]) (hany e he)
      | none =>
        rw [hpw] at hsel
        refine hperm permL rngL (fun _ _ => hpermmem) ?_ hpw hsel
        intro hl hemp
        rw [hemp] at hpermlen
        simp at hpermlen
        omega
  · rw [Bool.not_eq_true] at hnp
    rw [hnp] at hsel
    simp only [Bool.false_eq_true, if_false] at hsel
    obtain ⟨h1, h2, h3, h4, h5, h6, h7, h8, h9, h10, h11, h12, h13, h14⟩ :=
      regenLoop_ok_state fuel _ _ _ _ _ _ hsel
    refine ⟨h2, h3, h5, h4, h6, h7, h8, h9, h10, h11, by rw [h1], ?_, ?_, ?_⟩
    · intro j' e he
      rw [h1] at he
      exact he
    · intro _ e he hp
      rw [h1] at he
      rw [List.any_eq_false] at h12
      exact absurd (by simp [hp]) (h12 e he)
    · intro hl hp
      cases hpc : paired with
      | none => exact h14 hpc hl
      | some j => exact (h13 j hpc) ▸ hp j hpc

/-! Shape of the binding-resolution tail. -/

/-- The hairpin remap changes state exactly as its inner
receive_external_packet call does. -/
theorem remap_state_eq (r : Router) (ia ip ea ep da dp : Nat) (t : Int) :
    (remap r ia ip ea ep da dp t).2 = (receive_external_packet r ea ep da dp false t).2 := by
  unfold remap
  rcases h : receive_external_packet r ea ep da dp false t with ⟨res, r'⟩
  cases res with
  | some p =>
    obtain ⟨pa, pb⟩ := p
    dsimp only
    split
    · rfl
    · rfl
  | none =>
    dsimp only
    split
    · rfl
    · rfl

/-- receive_external_packet leaves every state component but the binding
map unchanged, and preserves the map's length. -/
theorem receive_components (r : Router) (sa sp da dp : Nat) (b : Bool) (t : Int) :
    (receive_external_packet r sa sp da dp b t).2.intranet = r.intranet ∧
    (receive_external_packet r sa sp da dp b t).2.rng = r.rng ∧
    (receive_external_packet r sa sp da dp b t).2.external_addresses = r.external_addresses ∧
    (receive_external_packet r sa sp da dp b t).2.flags = r.flags ∧
    (receive_external_packet r sa sp da dp b t).2.mapping_timeout = r.mapping_timeout ∧
    (receive_external_packet r sa sp da dp b t).2.max_routing_table_len = r.max_routing_table_len ∧
    (receive_external_packet r sa sp da dp b t).2.capM = r.capM ∧
    (receive_external_packet r sa sp da dp b t).2.assigned_internal_addresses_start =
      r.assigned_internal_addresses_start ∧
    (receive_external_packet r sa sp da dp b t).2.assigned_internal_addresses_end =
      r.assigned_internal_addresses_end ∧
    (receive_external_packet r sa sp da dp b t).2.assigned_external_ports_start =
      r.assigned_external_ports_start ∧
    (receive_external_packet r sa sp da dp b t).2.assigned_external_ports_end =
      r.assigned_external_ports_end ∧
    (receive_external_packet r sa sp da dp b t).2.map.length = r.map.length := by
  rcases receive_state_shape r sa sp da dp b t with ⟨hn, heq⟩ | ⟨idx, tbl, hidx, heq⟩
  · rw [heq]
    exact ⟨rfl, rfl, rfl, rfl, rfl, rfl, rfl, rfl, rfl, rfl, rfl, rfl⟩
  · rw [heq]
    refine ⟨rfl, rfl, rfl, rfl, rfl, rfl, rfl, rfl, rfl, rfl, rfl, by simp⟩

/-- Case analysis of the binding-resolution tail of send_internal_packet:
either the sweep hit an exact reuse, in which case the result is the
hairpin remap of the refreshed state, or a binding was chosen (by
preferred reuse or by select_inet_address) and pushed before the remap. -/
theorem sendResolve_cases (r : Router) (sa sp da dp : Nat) (t : Int) (fuel ei : Nat)
    (d : DestType) (s' : Router)
    (hsend : sendResolve r sa sp da dp t fuel ei = some (d, s')) :
    (∃ map' aidx exp,
      tablesLoop r.flags sa sp da dp (t - r.mapping_timeout) t r.max_routing_table_len
        r.external_addresses.length r.external_addresses.length r.map 0 (pmInit r ei) = Sum.inl (map', aidx, exp) ∧
      d = (remap { r with map := map' } sa sp (r.external_addresses.getD aidx 0) exp
        da dp t).1 ∧
      s' = (remap { r with map := map' } sa sp (r.external_addresses.getD aidx 0) exp
        da dp t).2) ∨
    (∃ map' pm' eidx eport r'',
      tablesLoop r.flags sa sp da dp (t - r.mapping_timeout) t r.max_routing_table_len
        r.external_addresses.length r.external_addresses.length r.map 0 (pmInit r ei) = Sum.inr (map', pm') ∧
      ((pm' = some (eidx, some eport) ∧ r'' = { r with map := map' }) ∨
        ((∀ a b, pm' ≠ some (a, some b)) ∧
          select_inet_address { r with map := map' } (pm'.map (fun a => a.1)) sp fuel =
            .ok eidx eport r'')) ∧
      d = (remap (pushState r'' eidx eport sa sp da dp t) sa sp
        (r''.external_addresses.getD eidx 0) eport da dp t).1 ∧
      s' = (remap (pushState r'' eidx eport sa sp da dp t) sa sp
        (r''.external_addresses.getD eidx 0) eport da dp t).2) := by
  unfold sendResolve at hsend
  rw [show (if r.flags &&& IP_POOLING_BEHAVIOR_ARBITRARY > 0 then none
      else some (ei, none)) = pmInit r ei from rfl] at hsend
  dsimp only at hsend
  cases hloop : tablesLoop r.flags sa sp da dp (t - r.mapping_timeout) t
      r.max_routing_table_len r.external_addresses.length r.external_addresses.length
      r.map 0 (pmInit r ei) with
  | inl trip =>
    obtain ⟨map', aidx, exp⟩ := trip
    rw [hloop] at hsend
    dsimp only at hsend
    injection hsend with hsend
    exact Or.inl ⟨map', aidx, exp, rfl, (congrArg Prod.fst hsend).symm, (congrArg Prod.snd hsend).symm⟩
  | inr pair =>
    obtain ⟨map', pm'⟩ := pair
    rw [hloop] at hsend
    dsimp only at hsend
    rcases pm' with _ | ⟨a, _ | b⟩
    · cases hsel : select_inet_address { r with map := map' } none sp fuel with
      | ok eidx eport r'' =>
        rw [show (Option.map (fun a => a.1) (none : Option (Nat × Option Nat))) = none
          from rfl] at hsend
        rw [hsel] at hsend
        dsimp only at hsend
        injection hsend with hsend
        refine Or.inr ⟨map', none, eidx, eport, r'', rfl,
          Or.inr ⟨fun a b hab => absurd hab (by simp), hsel⟩, ?_, ?_⟩
        · exact (congrArg Prod.fst hsend).symm
        · exact (congrArg Prod.snd hsend).symm
      | crash =>
        rw [show (Option.map (fun a => a.1) (none : Option (Nat × Option Nat))) = none
          from rfl] at hsend
        rw [hsel] at hsend
        cases hsend
      | fuelOut =>
        rw [show (Option.map (fun a => a.1) (none : Option (Nat × Option Nat))) = none
          from rfl] at hsend
        rw [hsel] at hsend
        cases hsend
    · cases hsel : select_inet_address { r with map := map' } (some a) sp fuel with
      | ok eidx eport r'' =>
        rw [show (Option.map (fun x => x.1) (some (a, (none : Option Nat)))) = some a
          from rfl] at hsend
        rw [hsel] at hsend
        dsimp only at hsend
        injection hsend with hsend
        refine Or.inr ⟨map', some (a, none), eidx, eport, r'', rfl,
          Or.inr ⟨fun x y hxy => absurd hxy (by simp), hsel⟩, ?_, ?_⟩
        · exact (congrArg Prod.fst hsend).symm
        · exact (congrArg Prod.snd hsend).symm
      | crash =>
        rw [show (Option.map (fun x => x.1) (some (a, (none : Option Nat)))) = some a
          from rfl] at hsend
        rw [hsel] at hsend
        cases hsend
      | fuelOut =>
        rw [show (Option.map (fun x => x.1) (some (a, (none : Option Nat)))) = some a
          from rfl] at hsend
        rw [hsel] at hsend
        cases hsend
    · injection hsend with hsend
      refine Or.inr ⟨map', some (a, some b), a, b, { r with map := map' }, rfl,
        Or.inl ⟨rfl, rfl⟩, ?_, ?_⟩
      · exact (congrArg Prod.fst hsend).symm
      · exact (congrArg Prod.snd hsend).symm

/-! Timestamp bounds. -/

/-- receive_external_packet at time t keeps every timestamp at or below
any bound that dominates both the old rows and t. -/
theorem receive_getD_times (r : Router) (sa sp da dp : Nat) (b : Bool) (t tb : Int)
    (hc : t ≤ tb)
    (h : ∀ j, ∀ e ∈ r.map.getD j [], e.last_used_time ≤ tb) :
    ∀ j, ∀ e' ∈ (receive_external_packet r sa sp da dp b t).2.map.getD j [],
      e'.last_used_time ≤ tb := by
  intro j e' he'
  rcases receive_table_rows r sa sp da dp b t j e' he' with hm | ⟨e, hm, heq⟩
  · exact h j e' hm
  · rw [heq]
    exact hc

/-- The binding-resolution tail at time t keeps every timestamp at or
below t when every prior timestamp was. -/
theorem sendResolve_getD_times (r : Router) (sa sp da dp : Nat) (t : Int) (fuel ei : Nat)
    (d : DestType) (s' : Router)
    (hsend : sendResolve r sa sp da dp t fuel ei = some (d, s'))
    (h : ∀ j, ∀ e ∈ r.map.getD j [], e.last_used_time ≤ t) :
    ∀ j, ∀ e' ∈ s'.map.getD j [], e'.last_used_time ≤ t := by
  have hloopt : ∀ (pm : Option (Nat × Option Nat)) (mm : List (List Entry)) (aidx exp : Nat)
      (pm' : Option (Nat × Option Nat)),
      (tablesLoop r.flags sa sp da dp (t - r.mapping_timeout) t r.max_routing_table_len
        r.external_addresses.length r.external_addresses.length r.map 0 pm =
          Sum.inl (mm, aidx, exp) ∨
       tablesLoop r.flags sa sp da dp (t - r.mapping_timeout) t r.max_routing_table_len
        r.external_addresses.length r.external_addresses.length r.map 0 pm =
          Sum.inr (mm, pm')) →
      ∀ j, ∀ e' ∈ mm.getD j [], e'.last_used_time ≤ t := by
    intro pm mm aidx exp pm' hcase j e' he'
    have hrows : e' ∈ r.map.getD j [] ∨ ∃ e ∈ r.map.getD j [],
        e' = { e with last_used_time := t } := by
      rcases hcase with hc | hc
      · exact tablesLoop_rows r.flags sa sp da dp (t - r.mapping_timeout) t
          r.max_routing_table_len r.external_addresses.length r.external_addresses.length
          r.map 0 pm j e' (by rw [hc]; exact he')
      · exact tablesLoop_rows r.flags sa sp da dp (t - r.mapping_timeout) t
          r.max_routing_table_len r.external_addresses.length r.external_addresses.length
          r.map 0 pm j e' (by rw [hc]; exact he')
    rcases hrows with hm | ⟨e, hm, heq⟩
    · exact h j e' hm
    · rw [heq]
  rcases sendResolve_cases r sa sp da dp t fuel ei d s' hsend with
    ⟨map', aidx, exp, hloop, hd, hs⟩ | ⟨map', pm', eidx, eport, r'', hloop, hsel, hd, hs⟩
  · rw [hs, remap_state_eq]
    refine receive_getD_times _ _ _ _ _ _ _ _ le_rfl ?_
    exact hloopt _ map' aidx exp none (Or.inl hloop)
  · have hmm : ∀ j, ∀ e' ∈ map'.getD j [], e'.last_used_time ≤ t :=
      hloopt _ map' 0 0 pm' (Or.inr hloop)
    have hr'' : ∀ j, ∀ e' ∈ r''.map.getD j [], e'.last_used_time ≤ t := by
      rcases hsel with ⟨hpm, hr⟩ | ⟨hnot, hselok⟩
      · rw [hr]
        exact hmm
      · obtain ⟨_, _, _, _, _, _, _, _, _, _, _, hsub, _, _⟩ :=
          select_ok_spec _ _ _ _ _ _ _ hselok
        intro j e' he'
        exact hmm j e' (hsub j e' he')
    rw [hs, remap_state_eq]
    refine receive_getD_times _ _ _ _ _ _ _ _ le_rfl ?_
    intro j e' he'
    unfold pushState at he'
    by_cases hj : eidx = j
    · subst hj
      by_cases hlen : eidx < r''.map.length
      · rw [getD_set_self hlen] at he'
        rcases List.mem_append.mp he' with hm | hm
        · exact hr'' eidx e' hm
        · rw [List.mem_singleton.mp hm]
          exact le_rfl
      · rw [List.set_eq_of_length_le (by omega)] at he'
        exact hr'' eidx e' he'
    · rw [getD_set_ne hj] at he'
      exact hr'' j e' he'

/-- send_internal_packet at time t keeps every timestamp at or below t
when every prior timestamp was. -/
theorem send_getD_times (r : Router) (sa sp da dp : Nat) (t : Int) (fuel : Nat)
    (d : DestType) (s' : Router)
    (hsend : send_internal_packet r sa sp da dp t fuel = some (d, s'))
    (h : ∀ j, ∀ e ∈ r.map.getD j [], e.last_used_time ≤ t) :
    ∀ j, ∀ e' ∈ s'.map.getD j [], e'.last_used_time ≤ t := by
  unfold send_internal_packet at hsend
  split at hsend
  · injection hsend with hsend
    injection hsend with h1 h2
    rw [← h2]
    exact h
  · split at hsend
    · injection hsend with hsend
      injection hsend with h1 h2
      rw [← h2]
      exact h
    · cases hlook : lookupA r.intranet sa with
      | none =>
        rw [hlook] at hsend
        injection hsend with hsend
        injection hsend with h1 h2
        rw [← h2]
        exact h
      | some ei =>
        rw [hlook] at hsend
        exact sendResolve_getD_times r sa sp da dp t fuel ei d s' hsend h

/-- receive_external_packet finds nothing once every binding is expired. -/
theorem receive_none_of_expired (r : Router) (sa sp da dp : Nat) (now : Int)
    (h : ∀ j, ∀ e ∈ r.map.getD j [], e.last_used_time < now - r.mapping_timeout) :
    (receive_external_packet r sa sp da dp false now).1 = none := by
  unfold receive_external_packet
  cases hidx : findDestIdx da r.external_addresses with
  | none => rfl
  | some idx =>
    dsimp only
    rcases hscan : receiveScan r.flags sa sp dp false (now - r.mapping_timeout) now
        (r.map.getD idx []).length (r.map.getD idx []) 0 false with ⟨res, tbl', nd⟩
    have hres : res = none := by
      have := receiveScan_none_of_expired r.flags sa sp dp false
        (now - r.mapping_timeout) now (r.map.getD idx []).length (r.map.getD idx []) 0 false
        (h idx)
      rw [hscan] at this
      exact this
    subst hres
    rfl

/-- C5: a binding created (or last touched) by a send at time t answers
nothing at time t + mapping_timeout + 1: with no intervening refresh, every
row is older than the expiry cutoff, because a binding is live exactly when
now - last_used_time ≤ mapping_timeout. -/
theorem send_then_timeout_expires (r : Router) (sa sp da dp A P rsa rsp : Nat)
    (t : Int) (fuel : Nat) (s' : Router)
    (hsend : send_internal_packet r sa sp da dp t fuel = some (.external A P, s'))
    (htimes : ∀ tbl ∈ r.map, ∀ e ∈ tbl, e.last_used_time ≤ t) :
    (receive_external_packet s' rsa rsp A P false (t + s'.mapping_timeout + 1)).1 = none := by
  have hg : ∀ j, ∀ e ∈ r.map.getD j [], e.last_used_time ≤ t := by
    intro j e he
    rcases getD_mem_or_nil r.map j with hm | hnil
    · exact htimes _ hm e he
    · rw [hnil] at he
      cases he
  have hs' := send_getD_times r sa sp da dp t fuel (.external A P) s' hsend hg
  refine receive_none_of_expired s' rsa rsp A P (t + s'.mapping_timeout + 1) ?_
  intro j e he
  have := hs' j e he
  omega

/-- Closed instance of send_then_timeout_expires on the EASY_NAT state. -/
theorem send_then_timeout_expires_witness :
    (receive_external_packet rEasy2 22222 80 11111 17 false
      (200 + rEasy2.mapping_timeout + 1)).1 = none :=
  send_then_timeout_expires rEasy1 90000 17 22222 80 11111 17 22222 80 200 10 rEasy2
    (by rfl) (by decide)

/-! The PORT_PRESERVATION_OVERRIDE removal loop runs i over the range
0..len() captured before the loop while swap_remove shrinks the vector. -/

/-- C4: the claimed behavior fails.  On a table whose row at index 0 holds
the contested source port with one more row behind it, the override
removal loop's swap_remove shrinks the vector while the loop counter runs
to the captured initial length, so the indexing runs off the end: a Rust
index-out-of-bounds panic (modelled as crash) instead of removing every
row with the source port and returning (permutation[0], src_port). -/
theorem select_override_crash :
    (select_inet_address rOverride (some 0) 5 10).isCrash = true := by decide

/-- C3 counterexample: remap passes bypass_filter = false, so a hairpin
lookup IS rejected by ADDRESS_DEPENDENT_FILTERING.  In rHairpin, host
90001 owns external port 40 with last remote (55555, 60); a hairpin send
whose chosen external source is (11111, 17) is dropped, while the same
lookup with filtering bypassed finds the binding. -/
theorem remap_filter_counterexample :
    (remap rHairpin 90000 17 11111 17 11111 40 200).1 = DestType.drop ∧
    (receive_external_packet rHairpin 11111 17 11111 40 true 200).1 = some (90001, 30) :=
  ⟨by decide, by decide⟩

/-- C2 counterexample: from the empty router, one assign and two sends
from the same internal endpoint to two different remotes (flags all
clear, so PORT_PRESERVATION_OVERLOAD unset) leave two live rows with
external port 17 in the single table: the preferred-reuse record pushes a
second row with the reused port instead of extending the first. -/
theorem port_uniqueness_counterexample :
    (((runOps (Router.new cEasy) opsTwoSends).2.map.getD 0 []).filter
      (fun e => e.external_port == 17 &&
        decide (300 - (runOps (Router.new cEasy) opsTwoSends).2.mapping_timeout ≤
          e.last_used_time))).length = 2 ∧
    (Router.new cEasy).flags &&& PORT_PRESERVATION_OVERLOAD = 0 :=
  ⟨by decide, by decide⟩

/-- C1 counterexample: in rTwoOwners two live rows share external port 17
(owners (90001, 55) and (90000, 17)).  A send from (90000, 17) returns
External (11111, 17), but the subsequent receive on (11111, 17) — source
matching the stored remote, bypass_filter false, now within the timeout —
answers with the FIRST port-17 row's owner (90001, 55), not the sender. -/
theorem round_trip_counterexample :
    (send_internal_packet rTwoOwners 90000 17 22222 80 300 10).map (fun p => p.1) =
      some (DestType.external 11111 17) ∧
    (receive_external_packet rTwoOwners' 22222 80 11111 17 false 300).1 = some (90001, 55) ∧
    ((90001 : Nat), (55 : Nat)) ≠ ((90000 : Nat), (17 : Nat)) :=
  ⟨by decide, by decide, by decide⟩

/-! The inbound scan under filtering. -/

/-- If every live row with the destination port fails the filter, the scan
with filtering enabled finds nothing. -/
theorem receiveScan_none_of_filtered (flags sa sp dp : Nat) (expiry now : Int) :
    ∀ (gas : Nat) (table : List Entry) (i : Nat) (nd : Bool),
    (∀ e ∈ table, expiry ≤ e.last_used_time → e.external_port = dp →
      filterPass flags sa sp e = false) →
    (receiveScan flags sa sp dp false expiry now gas table i nd).1 = none := by
  intro gas table i nd
  induction gas, table, i, nd using receiveScan.induct flags sa sp dp false expiry now with
  | case1 table i nd =>
    intro hall
    rfl
  | case2 gas table i nd h route hlt ih =>
    intro hall
    rw [receiveScan, dif_pos h, if_pos hlt]
    exact ih (fun e he => hall e (mem_of_mem_swapRemove he))
  | case3 gas table i nd h route hlt hport hpass =>
    intro hall
    have hp : filterPass flags sa sp (table[i]) = true := by simpa using hpass
    have hlt' : ¬ (table[i]).last_used_time < expiry := hlt
    have hdp : (table[i]).external_port = dp := by simpa using hport
    rw [hall (table[i]) (List.getElem_mem h) (by omega) hdp] at hp
    cases hp
  | case4 gas table i nd h route hlt hport hpass ih =>
    intro hall
    rw [receiveScan, dif_pos h, if_neg hlt, if_pos hport, if_neg hpass]
    exact ih hall
  | case5 gas table i nd h route hlt hport ih =>
    intro hall
    rw [receiveScan, dif_pos h, if_neg hlt, if_neg hport]
    exact ih hall
  | case6 gas table i nd h =>
    intro hall
    rw [receiveScan, dif_neg h]

/-- With FILTERED_INBOUND_DESTROYS_MAPPING unset the scan never raises the
destruction mark. -/
theorem receiveScan_nd_const (flags sa sp dp : Nat) (b : Bool) (expiry now : Int)
    (hfl : flags &&& FILTERED_INBOUND_DESTROYS_MAPPING = 0) :
    ∀ (gas : Nat) (table : List Entry) (i : Nat) (nd : Bool),
    (receiveScan flags sa sp dp b expiry now gas table i nd).2.2 = nd := by
  intro gas table i nd
  induction gas, table, i, nd using receiveScan.induct flags sa sp dp b expiry now with
  | case1 table i nd => rfl
  | case2 gas table i nd h route hlt ih =>
    rw [receiveScan, dif_pos h, if_pos hlt]
    exact ih
  | case3 gas table i nd h route hlt hport hpass =>
    rw [receiveScan, dif_pos h, if_neg hlt, if_pos hport, if_pos hpass]
  | case4 gas table i nd h route hlt hport hpass ih =>
    rw [receiveScan, dif_pos h, if_neg hlt, if_pos hport, if_neg hpass, ih,
      decide_eq_false (by omega), Bool.or_false]
  | case5 gas table i nd h route hlt hport ih =>
    rw [receiveScan, dif_pos h, if_neg hlt, if_neg hport]
    exact ih
  | case6 gas table i nd h =>
    rw [receiveScan, dif_neg h]

/-- With FILTERED_INBOUND_DESTROYS_MAPPING set, a scan that still has a
live row with the destination port ahead of it (or that has already raised
the mark), and whose live port rows all fail the filter, ends with the
destruction mark raised. -/
theorem receiveScan_nd_true (flags sa sp dp : Nat) (expiry now : Int)
    (hfl : flags &&& FILTERED_INBOUND_DESTROYS_MAPPING > 0) :
    ∀ (gas : Nat) (table : List Entry) (i : Nat) (nd : Bool),
    table.length ≤ gas + i →
    (∀ e ∈ table, expiry ≤ e.last_used_time → e.external_port = dp →
      filterPass flags sa sp e = false) →
    (nd = true ∨ ∃ j e, i ≤ j ∧ table[j]? = some e ∧ expiry ≤ e.last_used_time ∧
      e.external_port = dp) →
    (receiveScan flags sa sp dp false expiry now gas table i nd).2.2 = true := by
  intro gas table i nd
  induction gas, table, i, nd using receiveScan.induct flags sa sp dp false expiry now with
  | case1 table i nd =>
    intro hgas hall hinv
    rcases hinv with h | ⟨j, e, hij, hje, _, _⟩
    · exact h
    · exfalso
      have hjl : j < table.length := by
        by_contra hc
        rw [List.getElem?_eq_none (by omega)] at hje
        cases hje
      omega
  | case2 gas table i nd h route hlt ih =>
    intro hgas hall hinv
    rw [receiveScan, dif_pos h, if_pos hlt]
    refine ih ?_ (fun e he => hall e (mem_of_mem_swapRemove he)) ?_
    · rw [length_swapRemove]; omega
    · rcases hinv with hnd | ⟨j, e, hij, hje, hlive, hdp⟩
      · exact Or.inl hnd
      · right
        have hjl : j < table.length := by
          by_contra hc
          rw [List.getElem?_eq_none (by omega)] at hje
          cases hje
        have hlt' : (table[i]).last_used_time < expiry := hlt
        have hji : i ≠ j := by
          intro hji
          subst hji
          rw [List.getElem?_eq_getElem h] at hje
          injection hje with hje
          rw [hje] at hlt'
          omega
        by_cases hlast : j < table.length - 1
        · exact ⟨j, e, hij, by rw [getElem?_swapRemove_of_lt hlast hji]; exact hje,
            hlive, hdp⟩
        · have hj' : j = table.length - 1 := by omega
          have hi' : i < table.length - 1 := by omega
          refine ⟨i, e, Nat.le_refl i, ?_, hlive, hdp⟩
          rw [getElem?_swapRemove_self hi', ← hj']
          exact hje
  | case3 gas table i nd h route hlt hport hpass =>
    intro hgas hall hinv
    have hp : filterPass flags sa sp (table[i]) = true := by simpa using hpass
    have hlt' : ¬ (table[i]).last_used_time < expiry := hlt
    have hdp : (table[i]).external_port = dp := by simpa using hport
    rw [hall (table[i]) (List.getElem_mem h) (by omega) hdp] at hp
    cases hp
  | case4 gas table i nd h route hlt hport hpass ih =>
    intro hgas hall hinv
    rw [receiveScan, dif_pos h, if_neg hlt, if_pos hport, if_neg hpass]
    refine ih (by omega) hall (Or.inl ?_)
    rw [decide_eq_true hfl, Bool.or_true]
  | case5 gas table i nd h route hlt hport ih =>
    intro hgas hall hinv
    rw [receiveScan, dif_pos h, if_neg hlt, if_neg hport]
    refine ih (by omega) hall ?_
    rcases hinv with hnd | ⟨j, e, hij, hje, hlive, hdp⟩
    · exact Or.inl hnd
    · right
      refine ⟨j, e, ?_, hje, hlive, hdp⟩
      rcases Nat.lt_or_ge i j with hlt2 | hge
      · omega
      · exfalso
        have hji : j = i := by omega
        subst hji
        rw [List.getElem?_eq_getElem h] at hje
        injection hje with hje
        have hport' : ¬ ((table[j]).external_port == dp) = true := hport
        rw [hje] at hport'
        exact hport' (by simpa using hdp)
  | case6 gas table i nd h =>
    intro hgas hall hinv
    rw [receiveScan, dif_neg h]
    rcases hinv with hnd | ⟨j, e, hij, hje, _, _⟩
    · exact hnd
    · exfalso
      have hjl : j < table.length := by
        by_contra hc
        rw [List.getElem?_eq_none (by omega)] at hje
        cases hje
      omega

/-- When given enough gas and a clean prefix, the destruction loop leaves
no row with the destination port. -/
theorem destroyPort_clean (dp : Nat) :
    ∀ (gas : Nat) (table : List Entry) (i : Nat),
    table.length ≤ gas + i →
    (∀ j, j < i → ∀ (hj : j < table.length), (table[j]).external_port ≠ dp) →
    ∀ e ∈ destroyPort dp gas table i, e.external_port ≠ dp := by
  intro gas table i
  induction gas, table, i using destroyPort.induct dp with
  | case1 table i =>
    intro hgas hpre e he
    rw [destroyPort] at he
    obtain ⟨j, hj, hej⟩ := List.mem_iff_getElem.mp he
    rw [← hej]
    exact hpre j (by omega) hj
  | case2 gas table i h hport ih =>
    intro hgas hpre e he
    rw [destroyPort, dif_pos h, if_pos hport] at he
    refine ih ?_ ?_ e he
    · rw [length_swapRemove]; omega
    · intro j hji hj
      have hj1 : j < table.length - 1 := by
        rw [length_swapRemove] at hj
        omega
      have hij : i ≠ j := by omega
      have hv := getElem?_swapRemove_of_lt hj1 hij
      rw [List.getElem?_eq_getElem hj,
        List.getElem?_eq_getElem (show j < table.length by omega)] at hv
      injection hv with hv
      rw [hv]
      exact hpre j hji (by omega)
  | case3 gas table i h hport ih =>
    intro hgas hpre e he
    rw [destroyPort, dif_pos h, if_neg hport] at he
    refine ih (by omega) ?_ e he
    intro j hji hj
    by_cases hje : j = i
    · subst hje
      simpa using hport
    · exact hpre j (by omega) hj
  | case4 gas table i h =>
    intro hgas hpre e he
    rw [destroyPort, dif_neg h] at he
    obtain ⟨j, hj, hej⟩ := List.mem_iff_getElem.mp he
    rw [← hej]
    exact hpre j (by omega) hj

/-- A scan that returns no result only removes expired rows: every live
input row is still in the table it leaves. -/
theorem receiveScan_live_survive (flags sa sp dp : Nat) (b : Bool) (expiry now : Int) :
    ∀ (gas : Nat) (table : List Entry) (i : Nat) (nd : Bool),
    (receiveScan flags sa sp dp b expiry now gas table i nd).1 = none →
    ∀ e ∈ table, expiry ≤ e.last_used_time →
      e ∈ (receiveScan flags sa sp dp b expiry now gas table i nd).2.1 := by
  intro gas table i nd
  induction gas, table, i, nd using receiveScan.induct flags sa sp dp b expiry now with
  | case1 table i nd =>
    intro hres e he hlive
    exact he
  | case2 gas table i nd h route hlt ih =>
    intro hres e he hlive
    rw [receiveScan, dif_pos h, if_pos hlt] at hres ⊢
    have hlt' : (table[i]).last_used_time < expiry := hlt
    have hne : e ≠ table[i] := by
      intro hc
      rw [hc] at hlive
      omega
    exact ih hres e (mem_swapRemove_of_ne h he hne) hlive
  | case3 gas table i nd h route hlt hport hpass =>
    intro hres e he hlive
    rw [receiveScan, dif_pos h, if_neg hlt, if_pos hport, if_pos hpass] at hres
    dsimp only at hres
    cases hres
  | case4 gas table i nd h route hlt hport hpass ih =>
    intro hres e he hlive
    rw [receiveScan, dif_pos h, if_neg hlt, if_pos hport, if_neg hpass] at hres ⊢
    exact ih hres e he hlive
  | case5 gas table i nd h route hlt hport ih =>
    intro hres e he hlive
    rw [receiveScan, dif_pos h, if_neg hlt, if_neg hport] at hres ⊢
    exact ih hres e he hlive
  | case6 gas table i nd h =>
    intro hres e he hlive
    rw [receiveScan, dif_neg h]
    exact he

/-- A scan with a live, filter-passing row with the destination port
somewhere ahead, in a table whose port rows all belong to one internal
endpoint, answers with that endpoint. -/
theorem receiveScan_hit (flags sa sp dp ia ip : Nat) (expiry now : Int) :
    ∀ (gas : Nat) (table : List Entry) (i : Nat) (nd : Bool),
    table.length ≤ gas + i →
    (∀ e ∈ table, e.external_port = dp →
      e.internal_addr = ia ∧ e.internal_port = ip) →
    (∃ j e, i ≤ j ∧ table[j]? = some e ∧ expiry ≤ e.last_used_time ∧
      e.external_port = dp ∧ filterPass flags sa sp e = true) →
    (receiveScan flags sa sp dp false expiry now gas table i nd).1 = some (ia, ip) := by
  intro gas table i nd
  induction gas, table, i, nd using receiveScan.induct flags sa sp dp false expiry now with
  | case1 table i nd =>
    intro hgas hown hwit
    obtain ⟨j, e, hij, hje, _, _, _⟩ := hwit
    exfalso
    have hjl : j < table.length := by
      by_contra hc
      rw [List.getElem?_eq_none (by omega)] at hje
      cases hje
    omega
  | case2 gas table i nd h route hlt ih =>
    intro hgas hown hwit
    rw [receiveScan, dif_pos h, if_pos hlt]
    refine ih ?_ (fun e he => hown e (mem_of_mem_swapRemove he)) ?_
    · rw [length_swapRemove]; omega
    · obtain ⟨j, e, hij, hje, hlive, hdp, hfp⟩ := hwit
      have hjl : j < table.length := by
        by_contra hc
        rw [List.getElem?_eq_none (by omega)] at hje
        cases hje
      have hlt' : (table[i]).last_used_time < expiry := hlt
      have hji : i ≠ j := by
        intro hji
        subst hji
        rw [List.getElem?_eq_getElem h] at hje
        injection hje with hje
        rw [hje] at hlt'
        omega
      by_cases hlast : j < table.length - 1
      · exact ⟨j, e, hij, by rw [getElem?_swapRemove_of_lt hlast hji]; exact hje,
          hlive, hdp, hfp⟩
      · have hj' : j = table.length - 1 := by omega
        have hi' : i < table.length - 1 := by omega
        refine ⟨i, e, Nat.le_refl i, ?_, hlive, hdp, hfp⟩
        rw [getElem?_swapRemove_self hi', ← hj']
        exact hje
  | case3 gas table i nd h route hlt hport hpass =>
    intro hgas hown hwit
    rw [receiveScan, dif_pos h, if_neg hlt, if_pos hport, if_pos hpass]
    dsimp only
    have hdp : (table[i]).external_port = dp := by simpa using hport
    obtain ⟨ha, hb⟩ := hown (table[i]) (List.getElem_mem h) hdp
    rw [show route.internal_addr = (table[i]).internal_addr from rfl,
      show route.internal_port = (table[i]).internal_port from rfl, ha, hb]
  | case4 gas table i nd h route hlt hport hpass ih =>
    intro hgas hown hwit
    rw [receiveScan, dif_pos h, if_neg hlt, if_pos hport, if_neg hpass]
    refine ih (by omega) hown ?_
    obtain ⟨j, e, hij, hje, hlive, hdp, hfp⟩ := hwit
    refine ⟨j, e, ?_, hje, hlive, hdp, hfp⟩
    rcases Nat.lt_or_ge i j with hlt2 | hge
    · omega
    · exfalso
      have hji : j = i := by omega
      subst hji
      rw [List.getElem?_eq_getElem h] at hje
      injection hje with hje
      have hpass' : ¬ ((false || filterPass flags sa sp (table[j])) = true) := hpass
      rw [hje] at hpass'
      exact hpass' (by simpa using hfp)
  | case5 gas table i nd h route hlt hport ih =>
    intro hgas hown hwit
    rw [receiveScan, dif_pos h, if_neg hlt, if_neg hport]
    refine ih (by omega) hown ?_
    obtain ⟨j, e, hij, hje, hlive, hdp, hfp⟩ := hwit
    refine ⟨j, e, ?_, hje, hlive, hdp, hfp⟩
    rcases Nat.lt_or_ge i j with hlt2 | hge
    · omega
    · exfalso
      have hji : j = i := by omega
      subst hji
      rw [List.getElem?_eq_getElem h] at hje
      injection hje with hje
      have hport' : ¬ ((table[j]).external_port == dp) = true := hport
      rw [hje] at hport'
      exact hport' (by simpa using hdp)
  | case6 gas table i nd h =>
    intro hgas hown hwit
    obtain ⟨j, e, hij, hje, _, _, _⟩ := hwit
    exfalso
    have hjl : j < table.length := by
      by_contra hc
      rw [List.getElem?_eq_none (by omega)] at hje
      cases hje
    omega

/-- If every live row with the destination port in the destination table
fails the filter, an inbound packet with filtering enabled is dropped. -/
theorem receive_filtered_none (r : Router) (sa sp da dp : Nat) (t : Int) (idx : Nat)
    (hidx : findDestIdx da r.external_addresses = some idx)
    (hall : ∀ e ∈ r.map.getD idx [], t - r.mapping_timeout ≤ e.last_used_time →
      e.external_port = dp → filterPass r.flags sa sp e = false) :
    (receive_external_packet r sa sp da dp false t).1 = none := by
  unfold receive_external_packet
  rw [hidx]
  dsimp only
  rcases hscan : receiveScan r.flags sa sp dp false (t - r.mapping_timeout) t
      (r.map.getD idx []).length (r.map.getD idx []) 0 false with ⟨res, tbl', nd⟩
  have hres : res = none := by
    have h0 := receiveScan_none_of_filtered r.flags sa sp dp (t - r.mapping_timeout) t
      (r.map.getD idx []).length (r.map.getD idx []) 0 false hall
    rw [hscan] at h0
    exact h0
  subst hres
  rfl

/-- C7: an inbound packet (filtering enabled) for which some live row of
the destination table carries the destination port but every such row
fails the filter returns none; with FILTERED_INBOUND_DESTROYS_MAPPING set
the destination table afterwards holds no row at all with that port, and
with the flag unset every live row of the table survives. -/
theorem receive_filtered_destroys (r : Router) (sa sp da dp : Nat) (t : Int) (idx : Nat)
    (hidx : findDestIdx da r.external_addresses = some idx)
    (hex : ∃ e ∈ r.map.getD idx [], t - r.mapping_timeout ≤ e.last_used_time ∧
      e.external_port = dp)
    (hall : ∀ e ∈ r.map.getD idx [], t - r.mapping_timeout ≤ e.last_used_time →
      e.external_port = dp → filterPass r.flags sa sp e = false) :
    (receive_external_packet r sa sp da dp false t).1 = none ∧
    (r.flags &&& FILTERED_INBOUND_DESTROYS_MAPPING > 0 →
      ∀ e ∈ (receive_external_packet r sa sp da dp false t).2.map.getD idx [],
        e.external_port ≠ dp) ∧
    (r.flags &&& FILTERED_INBOUND_DESTROYS_MAPPING = 0 →
      ∀ e ∈ r.map.getD idx [], t - r.mapping_timeout ≤ e.last_used_time →
        e ∈ (receive_external_packet r sa sp da dp false t).2.map.getD idx []) := by
  have hlen : idx < r.map.length := by
    by_contra hc
    obtain ⟨e, he, _⟩ := hex
    rw [List.getD_eq_getElem?_getD, List.getElem?_eq_none (by omega)] at he
    cases he
  refine ⟨receive_filtered_none r sa sp da dp t idx hidx hall, ?_, ?_⟩
  all_goals
    unfold receive_external_packet
    rw [hidx]
    dsimp only
    rcases hscan : receiveScan r.flags sa sp dp false (t - r.mapping_timeout) t
        (r.map.getD idx []).length (r.map.getD idx []) 0 false with ⟨res, tbl', nd⟩
  · intro hfl e he
    have hres : res = none := by
      have h0 := receiveScan_none_of_filtered r.flags sa sp dp (t - r.mapping_timeout) t
        (r.map.getD idx []).length (r.map.getD idx []) 0 false hall
      rw [hscan] at h0
      exact h0
    subst hres
    dsimp only at he
    rw [getD_set_self hlen] at he
    have hnd : nd = true := by
      have h1 := receiveScan_nd_true r.flags sa sp dp (t - r.mapping_timeout) t hfl
        (r.map.getD idx []).length (r.map.getD idx []) 0 false (by omega) hall ?_
      · rw [hscan] at h1
        exact h1
      · right
        obtain ⟨e0, he0, hlive0, hdp0⟩ := hex
        obtain ⟨j, hj, hej⟩ := List.mem_iff_getElem.mp he0
        exact ⟨j, e0, Nat.zero_le j, by rw [List.getElem?_eq_getElem hj, hej], hlive0, hdp0⟩
    subst hnd
    rw [if_pos rfl] at he
    exact destroyPort_clean dp tbl'.length tbl' 0 (by omega)
      (fun j hj0 hj => absurd hj0 (by omega)) e he
  · intro hfl e he hlive
    have hres : res = none := by
      have h0 := receiveScan_none_of_filtered r.flags sa sp dp (t - r.mapping_timeout) t
        (r.map.getD idx []).length (r.map.getD idx []) 0 false hall
      rw [hscan] at h0
      exact h0
    subst hres
    dsimp only
    rw [getD_set_self hlen]
    have hnd : nd = false := by
      have h1 := receiveScan_nd_const r.flags sa sp dp false (t - r.mapping_timeout) t hfl
        (r.map.getD idx []).length (r.map.getD idx []) 0 false
      rw [hscan] at h1
      exact h1
    subst hnd
    rw [if_neg (by simp)]
    have h2 := receiveScan_live_survive r.flags sa sp dp false (t - r.mapping_timeout) t
      (r.map.getD idx []).length (r.map.getD idx []) 0 false (by rw [hscan]) e he hlive
    rw [hscan] at h2
    exact h2

/-- Closed instance of receive_filtered_destroys: with destroy-on-filter
set, the filtered inbound packet for port 40 returns none and clears the
port's rows. -/
theorem receive_filtered_destroys_witness :
    (receive_external_packet rFiltered 55556 60 11111 40 false 200).1 = none ∧
    ∀ e ∈ (receive_external_packet rFiltered 55556 60 11111 40 false 200).2.map.getD 0 [],
      e.external_port ≠ 40 :=
  ⟨(receive_filtered_destroys rFiltered 55556 60 11111 40 200 0 (by decide) (by decide)
      (by decide)).1,
   (receive_filtered_destroys rFiltered 55556 60 11111 40 200 0 (by decide) (by decide)
      (by decide)).2.1 (by decide)⟩

/-- C3: amended.  remap passes bypass_filter = false to its inner
receive_external_packet call, so hairpin lookups ARE subject to the
filtering flags: when the hairpin destination is one of the NAT's external
addresses and every live binding on the destination port fails the filter
against the chosen external source, the hairpin packet is dropped. -/
theorem remap_filtered_drop (r : Router) (ia ip ea ep da dp : Nat) (t : Int) (idx : Nat)
    (hidx : findDestIdx da r.external_addresses = some idx)
    (hall : ∀ e ∈ r.map.getD idx [], t - r.mapping_timeout ≤ e.last_used_time →
      e.external_port = dp → filterPass r.flags ea ep e = false) :
    (remap r ia ip ea ep da dp t).1 = DestType.drop := by
  have h1 := receive_filtered_none r ea ep da dp t idx hidx hall
  have hext := (receive_components r ea ep da dp false t).2.2.1
  unfold remap
  rcases hrec : receive_external_packet r ea ep da dp false t with ⟨res, r'⟩
  rw [hrec] at h1 hext
  dsimp only at h1 hext
  subst h1
  dsimp only
  rw [if_pos (by rw [hext]; exact contains_eq_true_of_findDestIdx hidx)]

/-- Closed instance of remap_filtered_drop on the rHairpin state. -/
theorem remap_filtered_drop_witness :
    (remap rHairpin 90000 17 11111 17 11111 40 200).1 = DestType.drop :=
  remap_filtered_drop rHairpin 90000 17 11111 17 11111 40 200 0 (by decide) (by decide)

/-! Port ownership: rows sharing an external port share their internal
endpoint. -/

/-- Row provenance (drop, reorder, refresh) preserves TableOk. -/
theorem TableOk_of_rows (c : Int) {tbl' tbl : List Entry}
    (hrows : ∀ e' ∈ tbl', e' ∈ tbl ∨ ∃ e ∈ tbl, e' = { e with last_used_time := c })
    (hok : TableOk tbl) : TableOk tbl' := by
  intro e₁ h₁ e₂ h₂ hport
  have hget : ∀ e' ∈ tbl', ∃ e ∈ tbl, e.external_port = e'.external_port ∧
      e.internal_addr = e'.internal_addr ∧ e.internal_port = e'.internal_port := by
    intro e' he'
    rcases hrows e' he' with hm | ⟨e, hm, heq⟩
    · exact ⟨e', hm, rfl, rfl, rfl⟩
    · exact ⟨e, hm, by rw [heq], by rw [heq], by rw [heq]⟩
  obtain ⟨f₁, hf₁, hp₁, ha₁, hi₁⟩ := hget e₁ h₁
  obtain ⟨f₂, hf₂, hp₂, ha₂, hi₂⟩ := hget e₂ h₂
  obtain ⟨ga, gi⟩ := hok f₁ hf₁ f₂ hf₂ (by rw [hp₁, hp₂, hport])
  exact ⟨by rw [← ha₁, ← ha₂, ga], by rw [← hi₁, ← hi₂, gi]⟩

/-- receive_external_packet preserves port ownership in every table. -/
theorem receive_tableok (r : Router) (sa sp da dp : Nat) (b : Bool) (t : Int)
    (hok : ∀ j, TableOk (r.map.getD j [])) :
    ∀ j, TableOk ((receive_external_packet r sa sp da dp b t).2.map.getD j []) :=
  fun j => TableOk_of_rows t (receive_table_rows r sa sp da dp b t j) (hok j)

/-- Appending one row whose port is owned by its own internal endpoint
preserves TableOk. -/
theorem TableOk_append_one {tbl : List Entry} (n : Entry)
    (hok : TableOk tbl)
    (hfree : ∀ e ∈ tbl, e.external_port = n.external_port →
      e.internal_addr = n.internal_addr ∧ e.internal_port = n.internal_port) :
    TableOk (tbl ++ [n]) := by
  intro e₁ h₁ e₂ h₂ hport
  rcases List.mem_append.mp h₁ with m₁ | m₁ <;> rcases List.mem_append.mp h₂ with m₂ | m₂
  · exact hok e₁ m₁ e₂ m₂ hport
  · have hn : e₂ = n := List.mem_singleton.mp m₂
    subst hn
    exact hfree e₁ m₁ hport
  · have hn : e₁ = n := List.mem_singleton.mp m₁
    subst hn
    obtain ⟨ha, hi⟩ := hfree e₂ m₂ hport.symm
    exact ⟨ha.symm, hi.symm⟩
  · rw [List.mem_singleton.mp m₁, List.mem_singleton.mp m₂]
    exact ⟨rfl, rfl⟩

/-- Provenance of the preferred-mapping record through one table's sweep:
a recorded port was either carried in, or read off a row of this table
that belongs to the sending internal endpoint. -/
theorem tableSweep_pm (flags sa sp da dp : Nat) (expiry now : Int) (aidx : Nat) :
    ∀ (gas : Nat) (table : List Entry) (i : Nat) (ot : Int) (oi : Nat)
      (pm : Option (Nat × Option Nat)) (table' : List Entry)
      (pm' : Option (Nat × Option Nat)) (ot' : Int) (oi' : Nat) (j P : Nat),
    tableSweep flags sa sp da dp expiry now aidx gas table i ot oi pm =
      Sum.inr (table', pm', ot', oi') →
    pm' = some (j, some P) →
    pm = some (j, some P) ∨ (j = aidx ∧ ∃ e ∈ table, e.internal_addr = sa ∧
      e.internal_port = sp ∧ e.external_port = P) := by
  intro gas table i ot oi pm
  induction gas, table, i, ot, oi, pm using tableSweep.induct flags sa sp da dp expiry now aidx with
  | case1 table i ot oi pm =>
    intro table' pm' ot' oi' j P heq hpm
    rw [tableSweep] at heq
    injection heq with heq
    injection heq with h1 heq
    injection heq with h2 heq
    rw [← h2] at hpm
    exact Or.inl hpm
  | case2 gas table i ot oi pm h route hlt ih =>
    intro table' pm' ot' oi' j P heq hpm
    rw [tableSweep, dif_pos h, if_pos hlt] at heq
    rcases ih table' pm' ot' oi' j P heq hpm with hl | ⟨hj, e, he, hf⟩
    · exact Or.inl hl
    · exact Or.inr ⟨hj, e, mem_of_mem_swapRemove he, hf⟩
  | case3 gas table i ot oi pm h route hlt hint am pmx hexact ih =>
    intro table' pm' ot' oi' j P heq hpm
    rw [tableSweep, dif_pos h, if_neg hlt] at heq
    dsimp only at heq
    rw [if_pos hint, if_pos hexact] at heq
    cases heq
  | case4 gas table i ot oi pm h route hlt hint am pmx hnexact hqual ih =>
    intro table' pm' ot' oi' j P heq hpm
    rw [tableSweep, dif_pos h, if_neg hlt] at heq
    dsimp only at heq
    rw [if_pos hint, if_neg hnexact, if_pos hqual] at heq
    rcases ih _ table' pm' ot' oi' j P heq hpm with hl | ⟨hj, e, he, hf⟩
    · injection hl with hl
      have hja : aidx = j := congrArg Prod.fst hl
      have hP : some ((table[i]).external_port) = some P := congrArg Prod.snd hl
      injection hP with hP
      have hint' : ((table[i]).internal_addr == sa &&
          (table[i]).internal_port == sp) = true := hint
      rw [Bool.and_eq_true, beq_iff_eq, beq_iff_eq] at hint'
      exact Or.inr ⟨hja.symm, table[i], List.getElem_mem h, hint'.1, hint'.2, hP⟩
    · exact Or.inr ⟨hj, e, he, hf⟩
  | case5 gas table i ot oi pm h route hlt hint am pmx hnexact hnqual ih =>
    intro table' pm' ot' oi' j P heq hpm
    rw [tableSweep, dif_pos h, if_neg hlt] at heq
    dsimp only at heq
    rw [if_pos hint, if_neg hnexact, if_neg hnqual] at heq
    exact ih _ table' pm' ot' oi' j P heq hpm
  | case6 gas table i ot oi pm h route hlt hnint ih =>
    intro table' pm' ot' oi' j P heq hpm
    rw [tableSweep, dif_pos h, if_neg hlt] at heq
    dsimp only at heq
    rw [if_neg hnint] at heq
    exact ih _ table' pm' ot' oi' j P heq hpm
  | case7 gas table i ot oi pm h =>
    intro table' pm' ot' oi' j P heq hpm
    rw [tableSweep, dif_neg h] at heq
    injection heq with heq
    injection heq with h1 heq
    injection heq with h2 heq
    rw [← h2] at hpm
    exact Or.inl hpm

/-- Provenance of the preferred-mapping record through the whole sweep: a
recorded (index, port) pair was either carried in, or read off a row of
that index's table belonging to the sending internal endpoint. -/
theorem tablesLoop_pm (flags sa sp da dp : Nat) (expiry now : Int) (maxlen len : Nat) :
    ∀ (gas : Nat) (map : List (List Entry)) (aidx : Nat) (pm : Option (Nat × Option Nat))
      (map' : List (List Entry)) (pm' : Option (Nat × Option Nat)) (j P : Nat),
    tablesLoop flags sa sp da dp expiry now maxlen len gas map aidx pm = Sum.inr (map', pm') →
    pm' = some (j, some P) →
    pm = some (j, some P) ∨ ∃ e ∈ map.getD j [], e.internal_addr = sa ∧
      e.internal_port = sp ∧ e.external_port = P := by
  intro gas map aidx pm
  induction gas, map, aidx, pm using tablesLoop.induct flags sa sp da dp expiry now maxlen len with
  | case1 map aidx pm =>
    intro map' pm' j P heq hpm
    rw [tablesLoop] at heq
    injection heq with heq
    injection heq with h1 h2
    rw [← h2] at hpm
    exact Or.inl hpm
  | case2 gas map aidx pm hlt table' ex_port hsweep =>
    intro map' pm' j P heq hpm
    rw [tablesLoop, if_pos hlt, hsweep] at heq
    cases heq
  | case3 gas map aidx pm hlt tblS pmS fstS oiS hsweep tbl2 ih =>
    intro map' pm' j P heq hpm
    rw [tablesLoop, if_pos hlt, hsweep] at heq
    dsimp only at heq
    rcases ih map' pm' j P heq hpm with hl | ⟨e, he, hf⟩
    · rcases tableSweep_pm flags sa sp da dp expiry now aidx
        (map.getD aidx []).length (map.getD aidx []) 0 (2 ^ 63 - 1) 0 pm
        tblS pmS fstS oiS j P hsweep hl with hl2 | ⟨hj, e, he, hf⟩
      · exact Or.inl hl2
      · subst hj
        exact Or.inr ⟨e, he, hf⟩
    · by_cases hj : aidx = j
      · subst hj
        by_cases hlen : aidx < map.length
        · rw [getD_set_self hlen] at he
          have he2 : e ∈ tblS := by
            have he' : e ∈ (if tblS.length ≥ maxlen then swapRemove tblS oiS else tblS) := he
            split at he'
            · exact mem_of_mem_swapRemove he'
            · exact he'
          have hrow := tableSweep_rows flags sa sp da dp expiry now aidx
            (map.getD aidx []).length (map.getD aidx []) 0 (2 ^ 63 - 1) 0 pm e
            (by rw [hsweep]; exact he2)
          rcases hrow with hm | ⟨e₀, hm, heq0⟩
          · exact Or.inr ⟨e, hm, hf⟩
          · refine Or.inr ⟨e₀, hm, ?_⟩
            rw [heq0] at hf
            exact hf
        · rw [List.set_eq_of_length_le (by omega)] at he
          exact Or.inr ⟨e, he, hf⟩
      · rw [getD_set_ne hj] at he
        exact Or.inr ⟨e, he, hf⟩
  | case4 gas map aidx pm hge =>
    intro map' pm' j P heq hpm
    rw [tablesLoop, if_neg hge] at heq
    injection heq with heq
    injection heq with h1 h2
    rw [← h2] at hpm
    exact Or.inl hpm

/-- Binding resolution preserves port ownership in every table when
PORT_PRESERVATION_OVERLOAD is unset. -/
theorem sendResolve_mapok (r : Router) (sa sp da dp : Nat) (t : Int) (fuel ei : Nat)
    (d : DestType) (s' : Router)
    (hov : r.flags &&& PORT_PRESERVATION_OVERLOAD = 0)
    (hsend : sendResolve r sa sp da dp t fuel ei = some (d, s'))
    (hok : ∀ j, TableOk (r.map.getD j [])) :
    ∀ j, TableOk (s'.map.getD j []) := by
  rcases sendResolve_cases r sa sp da dp t fuel ei d s' hsend with
    ⟨map', aidx, exp, hloop, hd, hs⟩ | ⟨map', pm', eidx, eport, r'', hloop, hsel, hd, hs⟩
  · have hok' : ∀ j, TableOk (map'.getD j []) := by
      intro j
      refine TableOk_of_rows t ?_ (hok j)
      intro e' he'
      exact tablesLoop_rows r.flags sa sp da dp (t - r.mapping_timeout) t
        r.max_routing_table_len r.external_addresses.length r.external_addresses.length
        r.map 0 (pmInit r ei) j e' (by rw [hloop]; exact he')
    rw [hs, remap_state_eq]
    exact receive_tableok _ _ _ _ _ _ _ hok'
  · have hokm : ∀ j, TableOk (map'.getD j []) := by
      intro j
      refine TableOk_of_rows t ?_ (hok j)
      intro e' he'
      exact tablesLoop_rows r.flags sa sp da dp (t - r.mapping_timeout) t
        r.max_routing_table_len r.external_addresses.length r.external_addresses.length
        r.map 0 (pmInit r ei) j e' (by rw [hloop]; exact he')
    have hmaprows : ∀ j, ∀ e' ∈ map'.getD j [], e' ∈ r.map.getD j [] ∨
        ∃ e ∈ r.map.getD j [], e' = { e with last_used_time := t } := by
      intro j e' he'
      exact tablesLoop_rows r.flags sa sp da dp (t - r.mapping_timeout) t
        r.max_routing_table_len r.external_addresses.length r.external_addresses.length
        r.map 0 (pmInit r ei) j e' (by rw [hloop]; exact he')
    have hr''ok : ∀ j, TableOk (r''.map.getD j []) := by
      rcases hsel with ⟨hpm, hr⟩ | ⟨hnot, hselok⟩
      · rw [hr]
        exact hokm
      · have hsub := (select_ok_spec _ _ _ _ _ _ _ hselok).2.2.2.2.2.2.2.2.2.2.2.1
        intro j
        refine TableOk_of_rows t ?_ (hokm j)
        intro e' he'
        exact Or.inl (hsub j e' he')
    have hfree : ∀ e ∈ r''.map.getD eidx [], e.external_port = eport →
        e.internal_addr = sa ∧ e.internal_port = sp := by
      rcases hsel with ⟨hpm, hr⟩ | ⟨hnot, hselok⟩
      · -- preferred reuse: the recorded port belongs to the sender
        rcases tablesLoop_pm r.flags sa sp da dp (t - r.mapping_timeout) t
            r.max_routing_table_len r.external_addresses.length r.external_addresses.length
            r.map 0 (pmInit r ei) map' pm' eidx eport hloop hpm with hl | ⟨e₀, he₀, ha₀, hi₀, hp₀⟩
        · exfalso
          unfold pmInit at hl
          split at hl
          · cases hl
          · injection hl with hl
            have : (none : Option Nat) = some eport := congrArg Prod.snd hl
            cases this
        · intro e he hp
          rw [hr] at he
          rcases hmaprows eidx e he with hm | ⟨e₁, hm, heq⟩
          · obtain ⟨ga, gi⟩ := hok eidx e hm e₀ he₀ (by rw [hp, hp₀])
            exact ⟨ga.trans ha₀, gi.trans hi₀⟩
          · obtain ⟨ga, gi⟩ := hok eidx e₁ hm e₀ he₀ (by
              rw [show e₁.external_port = e.external_port from by rw [heq], hp, hp₀])
            rw [heq]
            exact ⟨ga.trans ha₀, gi.trans hi₀⟩
      · have hclean := (select_ok_spec _ _ _ _ _ _ _ hselok).2.2.2.2.2.2.2.2.2.2.2.2.1
        intro e he hp
        exact absurd hp (hclean hov e he)
    have hpush : ∀ j, TableOk ((pushState r'' eidx eport sa sp da dp t).map.getD j []) := by
      intro j
      unfold pushState
      dsimp only
      by_cases hj : eidx = j
      · subst hj
        by_cases hl : eidx < r''.map.length
        · rw [getD_set_self hl]
          exact TableOk_append_one _ (hr''ok eidx) hfree
        · rw [List.set_eq_of_length_le (by omega)]
          exact hr''ok eidx
      · rw [getD_set_ne hj]
        exact hr''ok j
    rw [hs, remap_state_eq]
    exact receive_tableok _ _ _ _ _ _ _ hpush

/-- send_internal_packet preserves port ownership in every table when
PORT_PRESERVATION_OVERLOAD is unset. -/
theorem send_mapok (r : Router) (sa sp da dp : Nat) (t : Int) (fuel : Nat)
    (d : DestType) (s' : Router)
    (hov : r.flags &&& PORT_PRESERVATION_OVERLOAD = 0)
    (hsend : send_internal_packet r sa sp da dp t fuel = some (d, s'))
    (hok : ∀ j, TableOk (r.map.getD j [])) :
    ∀ j, TableOk (s'.map.getD j []) := by
  unfold send_internal_packet at hsend
  split at hsend
  · injection hsend with hsend
    injection hsend with h1 h2
    rw [← h2]
    exact hok
  · split at hsend
    · injection hsend with hsend
      injection hsend with h1 h2
      rw [← h2]
      exact hok
    · cases hlook : lookupA r.intranet sa with
      | none =>
        rw [hlook] at hsend
        injection hsend with hsend
        injection hsend with h1 h2
        rw [← h2]
        exact hok
      | some ei =>
        rw [hlook] at hsend
        exact sendResolve_mapok r sa sp da dp t fuel ei d s' hov hsend hok

/-- Binding resolution leaves the flag word unchanged. -/
theorem sendResolve_flags (r : Router) (sa sp da dp : Nat) (t : Int) (fuel ei : Nat)
    (d : DestType) (s' : Router)
    (hsend : sendResolve r sa sp da dp t fuel ei = some (d, s')) :
    s'.flags = r.flags := by
  rcases sendResolve_cases r sa sp da dp t fuel ei d s' hsend with
    ⟨map', aidx, exp, hloop, hd, hs⟩ | ⟨map', pm', eidx, eport, r'', hloop, hsel, hd, hs⟩
  · rw [hs, remap_state_eq]
    exact (receive_components _ _ _ _ _ _ _).2.2.2.1
  · have hr'' : r''.flags = r.flags := by
      rcases hsel with ⟨_, hr⟩ | ⟨_, hselok⟩
      · rw [hr]
      · exact (select_ok_spec _ _ _ _ _ _ _ hselok).2.1
    rw [hs, remap_state_eq]
    have hrec := (receive_components (pushState r'' eidx eport sa sp da dp t)
      (r''.external_addresses.getD eidx 0) eport da dp false t).2.2.2.1
    exact hrec.trans hr''

/-- send_internal_packet leaves the flag word unchanged. -/
theorem send_flags (r : Router) (sa sp da dp : Nat) (t : Int) (fuel : Nat)
    (d : DestType) (s' : Router)
    (hsend : send_internal_packet r sa sp da dp t fuel = some (d, s')) :
    s'.flags = r.flags := by
  unfold send_internal_packet at hsend
  split at hsend
  · injection hsend with hsend
    injection hsend with h1 h2
    rw [← h2]
  · split at hsend
    · injection hsend with hsend
      injection hsend with h1 h2
      rw [← h2]
    · cases hlook : lookupA r.intranet sa with
      | none =>
        rw [hlook] at hsend
        injection hsend with hsend
        injection hsend with h1 h2
        rw [← h2]
      | some ei =>
        rw [hlook] at hsend
        exact sendResolve_flags r sa sp da dp t fuel ei d s' hsend

/-- A successful address assignment only advances the PRNG and grows the
registry. -/
theorem assign_state (r : Router) : ∀ (fuel : Nat) (a : Nat) (r' : Router),
    assign_internal_address r fuel = some (a, r') →
    r'.map = r.map ∧ r'.flags = r.flags := by
  intro fuel
  induction fuel generalizing r with
  | zero =>
    intro a r' h
    cases h
  | succ n ih =>
    intro a r' h
    unfold assign_internal_address at h
    dsimp only at h
    split at h <;> split at h
    · have hres := ih _ a r' h
      exact hres
    · injection h with h
      injection h with h1 h2
      rw [← h2]
      exact ⟨rfl, rfl⟩
    · have hres := ih _ a r' h
      exact hres
    · injection h with h
      injection h with h1 h2
      rw [← h2]
      exact ⟨rfl, rfl⟩

/-- One router call keeps the flag word and port ownership (with
PORT_PRESERVATION_OVERLOAD unset). -/
theorem stepOp_inv (r : Router) (op : Op)
    (hov : r.flags &&& PORT_PRESERVATION_OVERLOAD = 0)
    (hok : ∀ j, TableOk (r.map.getD j [])) :
    (stepOp r op).2.flags = r.flags ∧ ∀ j, TableOk ((stepOp r op).2.map.getD j []) := by
  cases op with
  | assign fuel =>
    unfold stepOp
    dsimp only
    cases h : assign_internal_address r fuel with
    | none => exact ⟨rfl, hok⟩
    | some p =>
      obtain ⟨a, r'⟩ := p
      obtain ⟨hm, hf⟩ := assign_state r fuel a r' h
      dsimp only
      refine ⟨hf, ?_⟩
      intro j
      rw [hm]
      exact hok j
  | send sa sp da dp t fuel =>
    unfold stepOp
    dsimp only
    cases h : send_internal_packet r sa sp da dp t fuel with
    | none => exact ⟨rfl, hok⟩
    | some p =>
      obtain ⟨d, s'⟩ := p
      dsimp only
      exact ⟨send_flags r sa sp da dp t fuel d s' h,
        send_mapok r sa sp da dp t fuel d s' hov h hok⟩
  | recv sa sp da dp b t =>
    have h2 : (stepOp r (.recv sa sp da dp b t)).2 =
        (receive_external_packet r sa sp da dp b t).2 := rfl
    rw [h2]
    exact ⟨(receive_components r sa sp da dp b t).2.2.2.1,
      receive_tableok r sa sp da dp b t hok⟩

/-- Any call sequence keeps the flag word and port ownership (with
PORT_PRESERVATION_OVERLOAD unset). -/
theorem runOps_mapok (ops : List Op) :
    ∀ (r : Router), r.flags &&& PORT_PRESERVATION_OVERLOAD = 0 →
    (∀ j, TableOk (r.map.getD j [])) →
    (runOps r ops).2.flags = r.flags ∧ ∀ j, TableOk ((runOps r ops).2.map.getD j []) := by
  induction ops with
  | nil =>
    intro r hov hok
    exact ⟨rfl, hok⟩
  | cons op rest ih =>
    intro r hov hok
    obtain ⟨hf, hok'⟩ := stepOp_inv r op hov hok
    have hrun : (runOps r (op :: rest)).2 = (runOps (stepOp r op).2 rest).2 := rfl
    rw [hrun]
    obtain ⟨hf2, hok2⟩ := ih (stepOp r op).2 (by rw [hf]; exact hov) hok'
    exact ⟨hf2.trans hf, hok2⟩

/-- C2: amended.  Two live rows CAN share an external port without
PORT_PRESERVATION_OVERLOAD (see the counterexample: endpoint-independent
reuse pushes a second row with the reused port).  What holds instead is
ownership uniqueness: in every state reachable by any call sequence from a
freshly constructed router whose flags leave PORT_PRESERVATION_OVERLOAD
unset, any two rows of one external-address table that share an external
port belong to the same internal endpoint. -/
theorem port_owner_invariant (c : Config) (ops : List Op)
    (hov : c.flags &&& PORT_PRESERVATION_OVERLOAD = 0) :
    MapOk (runOps (Router.new c) ops).2.map := by
  have h0 : ∀ j, TableOk ((Router.new c).map.getD j []) := by
    intro j e₁ h₁ e₂ h₂ hp
    exfalso
    rcases getD_mem_or_nil (Router.new c).map j with hm | hnil
    · have hrep : (Router.new c).map.getD j [] = [] := List.eq_of_mem_replicate hm
      rw [hrep] at h₁
      cases h₁
    · rw [hnil] at h₁
      cases h₁
  obtain ⟨_, hok⟩ := runOps_mapok ops (Router.new c) hov h0
  intro tbl htbl e₁ h₁ e₂ h₂ hp
  obtain ⟨j, hj, hje⟩ := List.mem_iff_getElem.mp htbl
  have hgd : (runOps (Router.new c) ops).2.map.getD j [] = tbl := by
    rw [List.getD_eq_getElem?_getD, List.getElem?_eq_getElem hj, hje]
    rfl
  exact hok j e₁ (by rw [hgd]; exact h₁) e₂ (by rw [hgd]; exact h₂) hp

/-- Closed instance of port_owner_invariant on the two-send sequence. -/
theorem port_owner_invariant_witness :
    MapOk (runOps (Router.new cEasy) opsTwoSends).2.map :=
  port_owner_invariant cEasy opsTwoSends (by decide)

/-! Round trip: ingredients of the amended statement. -/

/-- A registry hit is a registry member. -/
theorem lookupA_mem : ∀ (l : List (Nat × Nat)) (k v : Nat),
    lookupA l k = some v → (k, v) ∈ l := by
  intro l
  induction l with
  | nil =>
    intro k v h
    cases h
  | cons p rest ih =>
    intro k v h
    obtain ⟨k', v'⟩ := p
    unfold lookupA at h
    split at h
    · injection h with h
      subst h
      rename_i hk
      subst hk
      exact List.mem_cons_self _ _
    · exact List.mem_cons_of_mem _ (ih k v h)

/-- A remap that reports External used the given external source pair,
found the destination off the NAT, and left the state unchanged. -/
theorem remap_external (rr : Router) (ia ip ea ep da dp A P : Nat) (t : Int) (s' : Router)
    (h : remap rr ia ip ea ep da dp t = (.external A P, s')) :
    A = ea ∧ P = ep ∧ s' = rr ∧ rr.external_addresses.contains da = false := by
  unfold remap at h
  have hext := (receive_components rr ea ep da dp false t).2.2.1
  rcases hrec : receive_external_packet rr ea ep da dp false t with ⟨res, r'⟩
  rw [hrec] at h hext
  cases res with
  | some p =>
    obtain ⟨pa, pb⟩ := p
    dsimp only at h
    split at h
    · injection h with h1 h2
      cases h1
    · injection h with h1 h2
      cases h1
  | none =>
    dsimp only at h
    split at h
    · injection h with h1 h2
      cases h1
    · rename_i hcont
      injection h with h1 h2
      injection h1 with hA hP
      have hcf : rr.external_addresses.contains da = false := by
        cases hcc : rr.external_addresses.contains da with
        | false => rfl
        | true => exact absurd (by rw [hext]; exact hcc) hcont
      have hrr : receive_external_packet rr ea ep da dp false t = (none, rr) := by
        unfold receive_external_packet
        rw [findDestIdx_none_of_contains_false hcf]
      rw [hrec] at hrr
      injection hrr with hr1 hr2
      exact ⟨hA.symm, hP.symm, h2 ▸ hr2, hcf⟩

/-- An exact-reuse hit (with outbound refresh enabled) leaves a refreshed
row of the sender for the destination carrying the returned port. -/
theorem tableSweep_inl (flags sa sp da dp : Nat) (expiry now : Int) (aidx : Nat)
    (hor : flags &&& OUTBOUND_REFRESH_BEHAVIOR_FALSE = 0) :
    ∀ (gas : Nat) (table : List Entry) (i : Nat) (ot : Int) (oi : Nat)
      (pm : Option (Nat × Option Nat)) (table' : List Entry) (P : Nat),
    tableSweep flags sa sp da dp expiry now aidx gas table i ot oi pm = Sum.inl (table', P) →
    ∃ e ∈ table', e.internal_addr = sa ∧ e.internal_port = sp ∧ e.external_port = P ∧
      e.endpoint_addr = da ∧ e.endpoint_port = dp ∧ e.last_used_time = now := by
  intro gas table i ot oi pm
  induction gas, table, i, ot, oi, pm using tableSweep.induct flags sa sp da dp expiry now aidx with
  | case1 table i ot oi pm =>
    intro table' P heq
    rw [tableSweep] at heq
    cases heq
  | case2 gas table i ot oi pm h route hlt ih =>
    intro table' P heq
    rw [tableSweep, dif_pos h, if_pos hlt] at heq
    exact ih table' P heq
  | case3 gas table i ot oi pm h route hlt hint am pmx hexact ih =>
    intro table' P heq
    rw [tableSweep, dif_pos h, if_neg hlt] at heq
    dsimp only at heq
    rw [if_pos hint, if_pos hexact,
      if_pos (show (flags &&& OUTBOUND_REFRESH_BEHAVIOR_FALSE == 0) = true by
        simpa using hor)] at heq
    injection heq with heq
    injection heq with h1 h2
    have hint' : ((table[i]).internal_addr == sa && (table[i]).internal_port == sp) = true :=
      hint
    rw [Bool.and_eq_true, beq_iff_eq, beq_iff_eq] at hint'
    have hexact' : (((table[i]).endpoint_addr == da) && ((table[i]).endpoint_port == dp)) =
        true := hexact
    rw [Bool.and_eq_true, beq_iff_eq, beq_iff_eq] at hexact'
    refine ⟨{ table[i] with last_used_time := now }, ?_, hint'.1, hint'.2, h2, hexact'.1,
      hexact'.2, rfl⟩
    rw [← h1]
    refine List.mem_iff_getElem.mpr ⟨i, by simpa using h, ?_⟩
    dsimp only
    exact List.getElem_set_self _
  | case4 gas table i ot oi pm h route hlt hint am pmx hnexact hqual ih =>
    intro table' P heq
    rw [tableSweep, dif_pos h, if_neg hlt] at heq
    dsimp only at heq
    rw [if_pos hint, if_neg hnexact, if_pos hqual] at heq
    exact ih _ table' P heq
  | case5 gas table i ot oi pm h route hlt hint am pmx hnexact hnqual ih =>
    intro table' P heq
    rw [tableSweep, dif_pos h, if_neg hlt] at heq
    dsimp only at heq
    rw [if_pos hint, if_neg hnexact, if_neg hnqual] at heq
    exact ih _ table' P heq
  | case6 gas table i ot oi pm h route hlt hnint ih =>
    intro table' P heq
    rw [tableSweep, dif_pos h, if_neg hlt] at heq
    dsimp only at heq
    rw [if_neg hnint] at heq
    exact ih _ table' P heq
  | case7 gas table i ot oi pm h =>
    intro table' P heq
    rw [tableSweep, dif_neg h] at heq
    cases heq

/-- The outer sweep preserves the number of tables. -/
theorem tablesLoop_len (flags sa sp da dp : Nat) (expiry now : Int) (maxlen len : Nat) :
    ∀ (gas : Nat) (map : List (List Entry)) (aidx : Nat) (pm : Option (Nat × Option Nat)),
    (loopOutMap (tablesLoop flags sa sp da dp expiry now maxlen len gas map aidx pm)).length =
      map.length := by
  intro gas map aidx pm
  induction gas, map, aidx, pm using tablesLoop.induct flags sa sp da dp expiry now maxlen len with
  | case1 map aidx pm => rfl
  | case2 gas map aidx pm hlt table' ex_port hsweep =>
    rw [tablesLoop, if_pos hlt, hsweep]
    dsimp only [loopOutMap]
    simp
  | case3 gas map aidx pm hlt tblS pmS fstS oiS hsweep tbl2 ih =>
    rw [tablesLoop, if_pos hlt, hsweep]
    dsimp only
    rw [ih]
    simp
  | case4 gas map aidx pm hge =>
    rw [tablesLoop, if_neg hge]
    rfl

/-- An exact-reuse hit of the whole sweep: the returned index is in range
and its table holds the refreshed row of the sender. -/
theorem tablesLoop_inl (flags sa sp da dp : Nat) (expiry now : Int) (maxlen len : Nat)
    (hor : flags &&& OUTBOUND_REFRESH_BEHAVIOR_FALSE = 0) :
    ∀ (gas : Nat) (map : List (List Entry)) (aidx : Nat) (pm : Option (Nat × Option Nat))
      (map' : List (List Entry)) (j P : Nat),
    tablesLoop flags sa sp da dp expiry now maxlen len gas map aidx pm = Sum.inl (map', j, P) →
    j < len ∧ map'.length = map.length ∧
    ∃ e ∈ map'.getD j [], e.internal_addr = sa ∧ e.internal_port = sp ∧
      e.external_port = P ∧ e.endpoint_addr = da ∧ e.endpoint_port = dp ∧
      e.last_used_time = now := by
  intro gas map aidx pm
  induction gas, map, aidx, pm using tablesLoop.induct flags sa sp da dp expiry now maxlen len with
  | case1 map aidx pm =>
    intro map' j P heq
    rw [tablesLoop] at heq
    cases heq
  | case2 gas map aidx pm hlt table' ex_port hsweep =>
    intro map' j P heq
    rw [tablesLoop, if_pos hlt, hsweep] at heq
    injection heq with heq
    injection heq with h1 heq
    injection heq with h2 h3
    have hmlen : aidx < map.length := by
      by_contra hc
      have hnil : map.getD aidx [] = [] := by
        rw [List.getD_eq_getElem?_getD, List.getElem?_eq_none (by omega)]
        rfl
      rw [hnil] at hsweep
      cases hsweep
    obtain ⟨e, he, hf⟩ := tableSweep_inl flags sa sp da dp expiry now aidx hor
      (map.getD aidx []).length (map.getD aidx []) 0 (2 ^ 63 - 1) 0 pm table' ex_port hsweep
    refine ⟨h2 ▸ hlt, by rw [← h1]; simp, ?_⟩
    rw [← h1, ← h2]
    rw [getD_set_self hmlen]
    exact ⟨e, he, h3 ▸ hf⟩
  | case3 gas map aidx pm hlt tblS pmS fstS oiS hsweep tbl2 ih =>
    intro map' j P heq
    rw [tablesLoop, if_pos hlt, hsweep] at heq
    dsimp only at heq
    obtain ⟨hj, hlen2, hwit⟩ := ih map' j P heq
    refine ⟨hj, by rw [hlen2]; simp, hwit⟩
  | case4 gas map aidx pm hge =>
    intro map' j P heq
    rw [tablesLoop, if_neg hge] at heq
    cases heq

/-- The address index of the preferred-mapping record after one table's
sweep: carried in, or this table's index. -/
theorem tableSweep_pm_idx (flags sa sp da dp : Nat) (expiry now : Int) (aidx : Nat) :
    ∀ (gas : Nat) (table : List Entry) (i : Nat) (ot : Int) (oi : Nat)
      (pm : Option (Nat × Option Nat)) (table' : List Entry)
      (pm' : Option (Nat × Option Nat)) (ot' : Int) (oi' : Nat) (j : Nat) (po : Option Nat),
    tableSweep flags sa sp da dp expiry now aidx gas table i ot oi pm =
      Sum.inr (table', pm', ot', oi') →
    pm' = some (j, po) →
    pm = some (j, po) ∨ j = aidx := by
  intro gas table i ot oi pm
  induction gas, table, i, ot, oi, pm using tableSweep.induct flags sa sp da dp expiry now aidx with
  | case1 table i ot oi pm =>
    intro table' pm' ot' oi' j po heq hpm
    rw [tableSweep] at heq
    injection heq with heq
    injection heq with h1 heq
    injection heq with h2 heq
    rw [← h2] at hpm
    exact Or.inl hpm
  | case2 gas table i ot oi pm h route hlt ih =>
    intro table' pm' ot' oi' j po heq hpm
    rw [tableSweep, dif_pos h, if_pos hlt] at heq
    exact ih table' pm' ot' oi' j po heq hpm
  | case3 gas table i ot oi pm h route hlt hint am pmx hexact ih =>
    intro table' pm' ot' oi' j po heq hpm
    rw [tableSweep, dif_pos h, if_neg hlt] at heq
    dsimp only at heq
    rw [if_pos hint, if_pos hexact] at heq
    cases heq
  | case4 gas table i ot oi pm h route hlt hint am pmx hnexact hqual ih =>
    intro table' pm' ot' oi' j po heq hpm
    rw [tableSweep, dif_pos h, if_neg hlt] at heq
    dsimp only at heq
    rw [if_pos hint, if_neg hnexact, if_pos hqual] at heq
    rcases ih _ table' pm' ot' oi' j po heq hpm with hl | hr
    · injection hl with hl
      exact Or.inr (congrArg Prod.fst hl).symm
    · exact Or.inr hr
  | case5 gas table i ot oi pm h route hlt hint am pmx hnexact hnqual ih =>
    intro table' pm' ot' oi' j po heq hpm
    rw [tableSweep, dif_pos h, if_neg hlt] at heq
    dsimp only at heq
    rw [if_pos hint, if_neg hnexact, if_neg hnqual] at heq
    exact ih _ table' pm' ot' oi' j po heq hpm
  | case6 gas table i ot oi pm h route hlt hnint ih =>
    intro table' pm' ot' oi' j po heq hpm
    rw [tableSweep, dif_pos h, if_neg hlt] at heq
    dsimp only at heq
    rw [if_neg hnint] at heq
    exact ih _ table' pm' ot' oi' j po heq hpm
  | case7 gas table i ot oi pm h =>
    intro table' pm' ot' oi' j po heq hpm
    rw [tableSweep, dif_neg h] at heq
    injection heq with heq
    injection heq with h1 heq
    injection heq with h2 heq
    rw [← h2] at hpm
    exact Or.inl hpm

/-- The address index of the preferred-mapping record after the whole
sweep: carried in, or an index below the address count. -/
theorem tablesLoop_pm_idx (flags sa sp da dp : Nat) (expiry now : Int) (maxlen len : Nat) :
    ∀ (gas : Nat) (map : List (List Entry)) (aidx : Nat) (pm : Option (Nat × Option Nat))
      (map' : List (List Entry)) (pm' : Option (Nat × Option Nat)) (j : Nat) (po : Option Nat),
    tablesLoop flags sa sp da dp expiry now maxlen len gas map aidx pm = Sum.inr (map', pm') →
    pm' = some (j, po) →
    pm = some (j, po) ∨ j < len := by
  intro gas map aidx pm
  induction gas, map, aidx, pm using tablesLoop.induct flags sa sp da dp expiry now maxlen len with
  | case1 map aidx pm =>
    intro map' pm' j po heq hpm
    rw [tablesLoop] at heq
    injection heq with heq
    injection heq with h1 h2
    rw [← h2] at hpm
    exact Or.inl hpm
  | case2 gas map aidx pm hlt table' ex_port hsweep =>
    intro map' pm' j po heq hpm
    rw [tablesLoop, if_pos hlt, hsweep] at heq
    cases heq
  | case3 gas map aidx pm hlt tblS pmS fstS oiS hsweep tbl2 ih =>
    intro map' pm' j po heq hpm
    rw [tablesLoop, if_pos hlt, hsweep] at heq
    dsimp only at heq
    rcases ih map' pm' j po heq hpm with hl | hr
    · rcases tableSweep_pm_idx flags sa sp da dp expiry now aidx
        (map.getD aidx []).length (map.getD aidx []) 0 (2 ^ 63 - 1) 0 pm
        tblS pmS fstS oiS j po hsweep hl with hl2 | hj
      · exact Or.inl hl2
      · exact Or.inr (hj ▸ hlt)
    · exact Or.inr hr
  | case4 gas map aidx pm hge =>
    intro map' pm' j po heq hpm
    rw [tablesLoop, if_neg hge] at heq
    injection heq with heq
    injection heq with h1 h2
    rw [← h2] at hpm
    exact Or.inl hpm

/-- When the destination table has a live, filter-passing row with the
destination port and all rows on that port belong to one internal
endpoint, the inbound packet is delivered to that endpoint. -/
theorem receive_hit (r : Router) (sa sp da dp ia ip : Nat) (t : Int) (idx : Nat)
    (hidx : findDestIdx da r.external_addresses = some idx)
    (hown : ∀ e ∈ r.map.getD idx [], e.external_port = dp →
      e.internal_addr = ia ∧ e.internal_port = ip)
    (hex : ∃ e ∈ r.map.getD idx [], t - r.mapping_timeout ≤ e.last_used_time ∧
      e.external_port = dp ∧ filterPass r.flags sa sp e = true) :
    (receive_external_packet r sa sp da dp false t).1 = some (ia, ip) := by
  unfold receive_external_packet
  rw [hidx]
  dsimp only
  rcases hscan : receiveScan r.flags sa sp dp false (t - r.mapping_timeout) t
      (r.map.getD idx []).length (r.map.getD idx []) 0 false with ⟨res, tbl', nd⟩
  have hres : res = some (ia, ip) := by
    have h0 := receiveScan_hit r.flags sa sp dp ia ip (t - r.mapping_timeout) t
      (r.map.getD idx []).length (r.map.getD idx []) 0 false (by omega) hown ?_
    · rw [hscan] at h0
      exact h0
    · obtain ⟨e, he, hlive, hdp, hfp⟩ := hex
      obtain ⟨jj, hj, hej⟩ := List.mem_iff_getElem.mp he
      exact ⟨jj, e, Nat.zero_le jj, by rw [List.getElem?_eq_getElem hj, hej], hlive, hdp, hfp⟩
  subst hres
  rfl

/-- What a send reporting External guarantees: the chosen address index is
in range, the address is the indexed external address, the configuration
is unchanged, and the final state's table at that index holds a row of the
sender for the destination with the returned port, stamped with the send
time. -/
theorem send_external_row (r : Router) (sa sp da dp A P : Nat) (t : Int) (fuel : Nat)
    (s' : Router)
    (hor : r.flags &&& OUTBOUND_REFRESH_BEHAVIOR_FALSE = 0)
    (hlen : r.map.length = r.external_addresses.length)
    (hlen0 : 0 < r.external_addresses.length)
    (hreg : ∀ p ∈ r.intranet, p.2 < r.external_addresses.length)
    (hsend : send_internal_packet r sa sp da dp t fuel = some (.external A P, s')) :
    ∃ aidx, aidx < r.external_addresses.length ∧ A = r.external_addresses.getD aidx 0 ∧
      s'.external_addresses = r.external_addresses ∧ s'.flags = r.flags ∧
      s'.mapping_timeout = r.mapping_timeout ∧
      ∃ e ∈ s'.map.getD aidx [], e.internal_addr = sa ∧ e.internal_port = sp ∧
        e.external_port = P ∧ e.endpoint_addr = da ∧ e.endpoint_port = dp ∧
        e.last_used_time = t := by
  unfold send_internal_packet at hsend
  split at hsend
  · injection hsend with h
    injection h with h1 h2
    cases h1
  · split at hsend
    · injection hsend with h
      injection h with h1 h2
      cases h1
    · cases hlook : lookupA r.intranet sa with
      | none =>
        rw [hlook] at hsend
        injection hsend with h
        injection h with h1 h2
        cases h1
      | some ei =>
        rw [hlook] at hsend
        have hei : ei < r.external_addresses.length := hreg _ (lookupA_mem _ _ _ hlook)
        rcases sendResolve_cases r sa sp da dp t fuel ei _ _ hsend with
          ⟨map', aidx, exp, hloop, hd, hs⟩ | ⟨map', pm', eidx, eport, r'', hloop, hsel, hd, hs⟩
        · have hpair : remap { r with map := map' } sa sp
              (r.external_addresses.getD aidx 0) exp da dp t = (.external A P, s') := by
            rw [hd, hs]
          obtain ⟨hA, hP, hs', hcf⟩ := remap_external _ _ _ _ _ _ _ _ _ _ _ hpair
          obtain ⟨haidx, hmlen, e, he, f1, f2, f3, f4, f5, f6⟩ :=
            tablesLoop_inl r.flags sa sp da dp (t - r.mapping_timeout) t
              r.max_routing_table_len r.external_addresses.length hor
              r.external_addresses.length r.map 0 (pmInit r ei) map' aidx exp hloop
          refine ⟨aidx, haidx, hA, ?_, ?_, ?_, e, ?_, f1, f2, ?_, f4, f5, f6⟩
          · rw [hs']
          · rw [hs']
          · rw [hs']
          · rw [hs']
            exact he
          · rw [f3, ← hP]
        · have hpair : remap (pushState r'' eidx eport sa sp da dp t) sa sp
              (r''.external_addresses.getD eidx 0) eport da dp t = (.external A P, s') := by
            rw [hd, hs]
          obtain ⟨hA, hP, hs', hcf⟩ := remap_external _ _ _ _ _ _ _ _ _ _ _ hpair
          have hmaplen : map'.length = r.map.length := by
            have hll := tablesLoop_len r.flags sa sp da dp (t - r.mapping_timeout) t
              r.max_routing_table_len r.external_addresses.length
              r.external_addresses.length r.map 0 (pmInit r ei)
            rw [hloop] at hll
            exact hll
          have hr''ext : r''.external_addresses = r.external_addresses := by
            rcases hsel with ⟨_, hr⟩ | ⟨_, hselok⟩
            · rw [hr]
            · exact (select_ok_spec _ _ _ _ _ _ _ hselok).1
          have hr''flags : r''.flags = r.flags := by
            rcases hsel with ⟨_, hr⟩ | ⟨_, hselok⟩
            · rw [hr]
            · exact (select_ok_spec _ _ _ _ _ _ _ hselok).2.1
          have hr''tm : r''.mapping_timeout = r.mapping_timeout := by
            rcases hsel with ⟨_, hr⟩ | ⟨_, hselok⟩
            · rw [hr]
            · exact (select_ok_spec _ _ _ _ _ _ _ hselok).2.2.1
          have hr''len : r''.map.length = r.map.length := by
            rcases hsel with ⟨_, hr⟩ | ⟨_, hselok⟩
            · rw [hr]
              exact hmaplen
            · exact ((select_ok_spec _ _ _ _ _ _ _
                hselok).2.2.2.2.2.2.2.2.2.2.1).trans hmaplen
          have heidx : eidx < r.external_addresses.length := by
            rcases hsel with ⟨hpm, _⟩ | ⟨hnot, hselok⟩
            · rcases tablesLoop_pm_idx r.flags sa sp da dp (t - r.mapping_timeout) t
                  r.max_routing_table_len r.external_addresses.length
                  r.external_addresses.length r.map 0 (pmInit r ei) map' pm'
                  eidx (some eport) hloop hpm with hl | hlt2
              · exfalso
                unfold pmInit at hl
                split at hl
                · cases hl
                · injection hl with hl
                  have h2 : (none : Option Nat) = some eport := congrArg Prod.snd hl
                  cases h2
              · exact hlt2
            · refine (select_ok_spec _ _ _ _ _ _ _
                hselok).2.2.2.2.2.2.2.2.2.2.2.2.2 hlen0 ?_
              intro j hj
              cases hpm' : pm' with
              | none =>
                rw [hpm'] at hj
                simp at hj
              | some a =>
                obtain ⟨ai, po⟩ := a
                rw [hpm'] at hj
                simp only [Option.map_some'] at hj
                injection hj with hj
                subst hj
                cases hpo : po with
                | some b =>
                  exfalso
                  rw [hpo] at hpm'
                  exact hnot _ _ hpm'
                | none =>
                  rw [hpo] at hpm'
                  rcases tablesLoop_pm_idx r.flags sa sp da dp (t - r.mapping_timeout) t
                      r.max_routing_table_len r.external_addresses.length
                      r.external_addresses.length r.map 0 (pmInit r ei) map' pm'
                      ai none hloop hpm' with hl | hlt2
                  · unfold pmInit at hl
                    split at hl
                    · cases hl
                    · injection hl with hl
                      have h1 : ei = ai := congrArg Prod.fst hl
                      rw [← h1]
                      exact hei
                  · exact hlt2
          have heidx2 : eidx < r''.map.length := by
            rw [hr''len, hlen]
            exact heidx
          refine ⟨eidx, heidx, by rw [hA, hr''ext], ?_, ?_, ?_,
            mkEntry sa sp eport da dp t, ?_, rfl, rfl, hP.symm, rfl, rfl, rfl⟩
          · rw [hs']
            exact hr''ext
          · rw [hs']
            exact hr''flags
          · rw [hs']
            exact hr''tm
          · rw [hs']
            unfold pushState
            dsimp only
            rw [getD_set_self heidx2]
            exact List.mem_append.mpr (Or.inr (List.mem_singleton.mpr rfl))

/-- C1: amended round trip.  The claim as stated fails (see the
counterexample: two internal endpoints can own live rows on one port, and
receive answers with the first matching row).  Under the well-formedness
a freshly constructed router maintains (distinct external addresses, one
table per address, in-range registry, port ownership), with
PORT_PRESERVATION_OVERLOAD unset and outbound refresh enabled, a send
returning External{A, P} at time t followed by a receive on (A, P) whose
source matches the stored remote under the active filtering flags, with
bypass_filter = false and now ≤ t + mapping_timeout, returns the sender's
(internal_addr, internal_port). -/
theorem round_trip_amended (r : Router) (sa sp da dp rsa rsp A P : Nat) (t now : Int)
    (fuel : Nat) (s' : Router)
    (hnd : r.external_addresses.Nodup)
    (hlen : r.map.length = r.external_addresses.length)
    (hlen0 : 0 < r.external_addresses.length)
    (hreg : ∀ p ∈ r.intranet, p.2 < r.external_addresses.length)
    (hok : ∀ j, TableOk (r.map.getD j []))
    (hov : r.flags &&& PORT_PRESERVATION_OVERLOAD = 0)
    (hor : r.flags &&& OUTBOUND_REFRESH_BEHAVIOR_FALSE = 0)
    (hsend : send_internal_packet r sa sp da dp t fuel = some (.external A P, s'))
    (haf : r.flags &&& ADDRESS_DEPENDENT_FILTERING ≠ 0 → rsa = da)
    (hpf : r.flags &&& PORT_DEPENDENT_FILTERING ≠ 0 → rsp = dp)
    (hnow : now ≤ t + r.mapping_timeout) :
    (receive_external_packet s' rsa rsp A P false now).1 = some (sa, sp) := by
  obtain ⟨aidx, haidx, hA, hext, hfl, htm, e₀, he₀, g1, g2, g3, g4, g5, g6⟩ :=
    send_external_row r sa sp da dp A P t fuel s' hor hlen hlen0 hreg hsend
  have hok' : ∀ j, TableOk (s'.map.getD j []) :=
    send_mapok r sa sp da dp t fuel _ s' hov hsend hok
  have hgetelem : r.external_addresses.get ⟨aidx, haidx⟩ = A := by
    rw [hA, List.getD_eq_getElem?_getD, List.getElem?_eq_getElem haidx]
    rfl
  have hidx : findDestIdx A s'.external_addresses = some aidx := by
    rw [hext]
    exact findDestIdx_of_nodup hnd haidx hgetelem
  refine receive_hit s' rsa rsp A P sa sp now aidx hidx ?_ ?_
  · intro e he hp
    obtain ⟨ha, hi⟩ := hok' aidx e he e₀ he₀ (by rw [hp, g3])
    exact ⟨ha.trans g1, hi.trans g2⟩
  · refine ⟨e₀, he₀, ?_, g3, ?_⟩
    · rw [htm, g6]
      omega
    · unfold filterPass
      rw [hfl, g4, g5]
      have c1 : (r.flags &&& ADDRESS_DEPENDENT_FILTERING == 0 || da == rsa) = true := by
        by_cases h1 : r.flags &&& ADDRESS_DEPENDENT_FILTERING = 0
        · rw [Bool.or_eq_true]
          left
          simpa using h1
        · rw [Bool.or_eq_true]
          right
          rw [haf h1]
          simp
      have c2 : (r.flags &&& PORT_DEPENDENT_FILTERING == 0 || dp == rsp) = true := by
        by_cases h2 : r.flags &&& PORT_DEPENDENT_FILTERING = 0
        · rw [Bool.or_eq_true]
          left
          simpa using h2
        · rw [Bool.or_eq_true]
          right
          rw [hpf h2]
          simp
      rw [c1, c2]
      rfl

/-- Closed instance of round_trip_amended on the EASY_NAT state: the send
at time 200 maps (90000, 17) to External (11111, 17) and the filtered
receive at time 300 answers with the sender. -/
theorem round_trip_amended_witness :
    (receive_external_packet rEasy2 22222 80 11111 17 false 300).1 = some (90000, 17) :=
  round_trip_amended rEasy1 90000 17 22222 80 22222 80 11111 17 200 300 10 rEasy2
    (by decide) (by decide) (by decide) (by decide)
    (fun j => by
      have hnil : rEasy1.map.getD j [] = [] := by
        cases j with
        | zero => rfl
        | succ n => rfl
      rw [hnil]
      intro e he
      cases he)
    (by decide) (by decide) (by rfl) (fun h => rfl) (fun h => rfl) (by decide)

end NatEmu
